import Mathlib

/-!
# golang-bump-progress: the releases data provider

A shallow embedding of `dataprovider/releases_data_provider.go` (the report
pass, the bump evaluation and the snapshot cache) and of `LoadConfig` of
`config/config.go`, together with the parts of
the version comparator (`github.com/Masterminds/semver/v3`, an external
library, as of its release 3.2) that the provider calls: `NewVersion`,
`GreaterThan` (through `Compare`) and `String`.

Conventions of the embedding:

* Go strings are Lean strings; library code that walks a string does so on its
  list of characters.
* A Go `error` result is an `Option String` (`none` is `nil`); a Go
  `(value, error)` result is a pair, because the provider reads the value of
  some calls even when the error is set.
* The two collaborator interfaces (`versionFetcher`, `tasVersionProvider`) are
  arbitrary deterministic objects: every answer is a function of the calls the
  object has received so far and of the arguments of the call.  The list of
  calls made so far is threaded through the provider's functions as explicit
  state.
* `log.Printf` / `log.Println` only write to the process log and are left out.
-/

/-! ## The version comparator (`Masterminds/semver/v3`) -/

namespace semver

/-- The `Version` struct of the library. -/
structure Version where
  major : Nat
  minor : Nat
  patch : Nat
  pre : String
  metadata : String
  original : String
deriving DecidableEq, Repr

/-- Membership in the constant `num = "0123456789"`. -/
def isNum (c : Char) : Bool := 48 ≤ c.toNat && c.toNat ≤ 57

/-- Membership in the constant `allowed`: ASCII letters, `-` and the digits. -/
def isAllowed (c : Char) : Bool :=
  (97 ≤ c.toNat && c.toNat ≤ 122) || (65 ≤ c.toNat && c.toNat ≤ 90) || c.toNat = 45 || isNum c

/-- The helper `containsOnly(s, comp)`: every character of `s` is in the set. -/
def containsOnly (s : List Char) (comp : Char → Bool) : Bool := s.all comp

/-- The function `strings.Split(s, ".")` on a list of characters: the pieces
between the dots, one empty piece for the empty string. -/
def splitDot : List Char → List (List Char)
  | [] => [[]]
  | c :: cs =>
    if c = '.' then [] :: splitDot cs
    else
      match splitDot cs with
      | [] => [[c]]
      | p :: ps => (c :: p) :: ps

/-- The value of a string of decimal digits, most significant digit first. -/
def decimalValue (s : List Char) : Nat := s.foldl (fun acc c => acc * 10 + (c.toNat - 48)) 0

/-- The call `strconv.ParseUint(s, 10, 64)`: a non-empty string of decimal
digits whose value fits in 64 bits; anything else is an error. -/
def ParseUint (s : List Char) : Option Nat :=
  if s = [] then none
  else if s.all isNum then
    if decimalValue s < 2 ^ 64 then some (decimalValue s) else none
  else none

/-- The function `validatePrerelease`: a numeric part may not start with a zero
unless it is the single digit zero, and other parts use allowed characters. -/
def validatePrerelease (p : List Char) : Bool :=
  (splitDot p).all fun part =>
    if containsOnly part isNum then !(decide (1 < part.length) && part.head? == some '0')
    else containsOnly part isAllowed

/-- The function `validateMetadata`: every part uses allowed characters. -/
def validateMetadata (m : List Char) : Bool :=
  (splitDot m).all fun part => containsOnly part isAllowed

/-- One optional group `(\.[0-9]+)?` of the version pattern: the digits after a
dot and the rest of the input, or no digits and the input untouched when the
group matches nothing. -/
def dotNumber : List Char → List Char × List Char
  | '.' :: rest =>
    if rest.takeWhile isNum = [] then ([], '.' :: rest)
    else (rest.takeWhile isNum, rest.dropWhile isNum)
  | cs => ([], cs)

/-- The body `[0-9A-Za-z\-]+(\.[0-9A-Za-z\-]+)*` of the pre-release and
metadata groups: dot-separated non-empty parts of allowed characters. -/
def isDotted (body : List Char) : Bool :=
  (splitDot body).all fun part => part ≠ [] && containsOnly part isAllowed

/-- The regular expression `versionRegex` (anchored at both ends), as the
submatches `NewVersion` reads: `m[1]`, `m[2]` and `m[3]` without their dot,
`m[5]` and `m[8]`. -/
def findSubmatch (v : List Char) :
    Option (List Char × List Char × List Char × List Char × List Char) :=
  let afterV := match v with
    | 'v' :: rest => rest
    | cs => cs
  let m1 := afterV.takeWhile isNum
  if m1 = [] then none
  else
    let (m2, r2) := dotNumber (afterV.dropWhile isNum)
    let (m3, r3) := dotNumber r2
    let (m5, r5, okPre) := match r3 with
      | '-' :: rest =>
        let body := rest.takeWhile fun c => isAllowed c || c = '.'
        (body, rest.dropWhile (fun c => isAllowed c || c = '.'), isDotted body)
      | cs => ([], cs, true)
    let (m8, r8, okMeta) := match r5 with
      | '+' :: rest =>
        let body := rest.takeWhile fun c => isAllowed c || c = '.'
        (body, rest.dropWhile (fun c => isAllowed c || c = '.'), isDotted body)
      | cs => ([], cs, true)
    if okPre && okMeta && r8 = [] then some (m1, m2, m3, m5, m8) else none

/-- The constructor `NewVersion(v string) (*Version, error)`; `none` stands for
the error result. -/
def NewVersion (v : String) : Option Version :=
  match findSubmatch v.data with
  | none => none
  | some (m1, m2, m3, m5, m8) =>
    match ParseUint m1 with
    | none => none
    | some major =>
      match (if m2 = [] then some 0 else ParseUint m2) with
      | none => none
      | some minor =>
        match (if m3 = [] then some 0 else ParseUint m3) with
        | none => none
        | some patch =>
          if m5 ≠ [] && !validatePrerelease m5 then none
          else if m8 ≠ [] && !validateMetadata m8 then none
          else some
            { major := major, minor := minor, patch := patch,
              pre := String.mk m5, metadata := String.mk m8, original := v }

/-- The method `Version.String()`: `major.minor.patch`, then `-pre` and
`+metadata` when present. -/
def Version.String (v : Version) : String :=
  toString v.major ++ "." ++ toString v.minor ++ "." ++ toString v.patch
    ++ (if v.pre ≠ "" then "-" ++ v.pre else "")
    ++ (if v.metadata ≠ "" then "+" ++ v.metadata else "")

/-- The helper `compareSegment(v, o uint64) int`. -/
def compareSegment (v o : Nat) : Int :=
  if v < o then -1 else if v > o then 1 else 0

/-- Go's `s > o` on strings: lexicographic order of the characters. -/
def strGreater : List Char → List Char → Bool
  | [], _ => false
  | _ :: _, [] => true
  | a :: s, b :: o => if a.toNat > b.toNat then true else if a.toNat < b.toNat then false else strGreater s o

/-- The helper `comparePrePart(s, o string) int`. -/
def comparePrePart (s o : List Char) : Int :=
  if s = o then 0
  else if s = [] then (if o ≠ [] then -1 else 1)
  else if o = [] then (if s ≠ [] then 1 else -1)
  else
    match ParseUint o, ParseUint s with
    | none, none => if strGreater s o then 1 else -1
    | none, some _ => -1
    | some _, none => 1
    | some oi, some si => if si > oi then 1 else -1

/-- The loop of `comparePrerelease` from index `i`, with `n` iterations left;
a part beyond the end of its list is the empty string. -/
def comparePrereleaseLoop (sparts oparts : List (List Char)) : Nat → Nat → Int
  | 0, _ => 0
  | n + 1, i =>
    let d := comparePrePart (sparts.getD i []) (oparts.getD i [])
    if d ≠ 0 then d else comparePrereleaseLoop sparts oparts n (i + 1)

/-- The helper `comparePrerelease(v, o string) int`. -/
def comparePrerelease (v o : List Char) : Int :=
  let sparts := splitDot v
  let oparts := splitDot o
  let l := if oparts.length > sparts.length then oparts.length else sparts.length
  comparePrereleaseLoop sparts oparts l 0

/-- The method `Version.Compare(o) int`: -1, 0 or 1. -/
def Version.Compare (v o : Version) : Int :=
  if compareSegment v.major o.major ≠ 0 then compareSegment v.major o.major
  else if compareSegment v.minor o.minor ≠ 0 then compareSegment v.minor o.minor
  else if compareSegment v.patch o.patch ≠ 0 then compareSegment v.patch o.patch
  else if v.pre = "" ∧ o.pre = "" then 0
  else if v.pre = "" then 1
  else if o.pre = "" then -1
  else comparePrerelease v.pre.data o.pre.data

/-- The method `Version.GreaterThan(o) bool`. -/
def Version.GreaterThan (v o : Version) : Bool := decide (v.Compare o > 0)

end semver

/-! ## Configuration (`config/config.go`) -/

namespace config

/-- The struct `config.Release`: one configured release. -/
structure Release where
  Name : String
  URL : String
  Owner : String
  Repo : String
  Platform : String
  TasReleaseName : String
  TaswReleaseName : String
  IstReleaseName : String
  CITeam : String
  CIPipeline : String
  OnlyDevelop : Bool
deriving DecidableEq, Repr

/-- The struct `config.Image`. -/
structure Image where
  Name : String
  URL : String
deriving DecidableEq, Repr

/-- The struct `config.Plugin`. -/
structure Plugin where
  Name : String
  URL : String
  Owner : String
  Repo : String
deriving DecidableEq, Repr

/-- The struct `config.Config`. -/
structure Config where
  CIBaseURL : String
  Releases : List Release
  Images : List Image
  Plugins : List Plugin
deriving DecidableEq, Repr

/-- The method `Config.CIURL`: `"%s/teams/%s/pipelines/%s"`. -/
def Config.CIURL (c : Config) (release : Release) : String :=
  c.CIBaseURL ++ "/teams/" ++ release.CITeam ++ "/pipelines/" ++ release.CIPipeline

end config

namespace version

/-- Modelled from the spec: the struct `version.VersionInfo` of the package
`version`, which is not among the sources; the version pair
(toolchain-version, release-version), of which the provider reads the fields
`GolangVersion` and `ReleaseVersion`. -/
structure VersionInfo where
  GolangVersion : String
  ReleaseVersion : String
deriving DecidableEq, Repr

end version

/-! ## The data provider (`dataprovider/releases_data_provider.go`) -/

namespace dataprovider

/-- The struct `dataprovider.Release`: one row of the report. -/
structure Release where
  Name : String
  URL : String
  VersionOnDev : String
  ReleasedVersion : String
  FirstReleasedGolangVersion : String
  FirstReleasedReleaseVersion : String
  BumpedInTas : String
  BumpedInTasw : String
  BumpedInIst : String
  CIURL : String
  CIBadgeURL : String
  AllBumped : Bool
deriving DecidableEq, Repr

/-- The struct `ReleasesData`: the report snapshot. -/
structure ReleasesData where
  GolangVersion : String
  Releases : List Release
deriving DecidableEq, Repr

/-- One call received by a collaborator, with its arguments. -/
inductive Call where
  | GetDevelopVersion (release : config.Release)
  | GetReleasedVersion (release : config.Release)
  | GetFirstReleasedVersion (release : config.Release) (releasedVersion : String)
  | Fetch (ref : String)
  | GetTasReleaseVersion (releaseName : String)
  | GetTaswReleaseVersion (releaseName : String)
  | GetIstReleaseVersion (releaseName : String)
deriving DecidableEq, Repr

/-- The interface `versionFetcher`.  The first argument of every method is the
list of calls made to the collaborators before this one, oldest first. -/
structure versionFetcher where
  GetDevelopVersion : List Call → config.Release → String × Option String
  GetReleasedVersion : List Call → config.Release → String × Option String
  GetFirstReleasedVersion :
    List Call → config.Release → String → version.VersionInfo × Option String

/-- The interface `tasVersionProvider`, in the same style. -/
structure tasVersionProvider where
  Fetch : List Call → String → Option String
  GetTasReleaseVersion : List Call → String → String × Bool
  GetTaswReleaseVersion : List Call → String → String × Bool
  GetIstReleaseVersion : List Call → String → String × Bool

/-- The struct `releasesDataProvider`.  A `time.Time` is the number of
nanoseconds since the zero time, so that `IsZero` is equality with `0`. -/
structure releasesDataProvider where
  githubVersion : versionFetcher
  tasVersion : tasVersionProvider
  config : config.Config
  lastFetchTime : Int
  cachedData : ReleasesData

/-- The constructor `NewReleasesDataProvider`: zero time and empty snapshot. -/
def NewReleasesDataProvider (githubVersion : versionFetcher) (tasVersion : tasVersionProvider)
    (cfg : config.Config) : releasesDataProvider :=
  { githubVersion := githubVersion, tasVersion := tasVersion, config := cfg,
    lastFetchTime := 0, cachedData := { GolangVersion := "", Releases := [] } }

/-- The `switch tileName` of `getTileBumpInfo` (lines 175-185): the answer of
the tile's lookup and the calls made so far after it, or `none` in the
`default` branch. -/
def tileLookup (p : releasesDataProvider) (tileName releaseName : String) (calls : List Call) :
    Option ((String × Bool) × List Call) :=
  if tileName = "TAS" then
    some (p.tasVersion.GetTasReleaseVersion calls releaseName,
      calls ++ [Call.GetTasReleaseVersion releaseName])
  else if tileName = "TASW" then
    some (p.tasVersion.GetTaswReleaseVersion calls releaseName,
      calls ++ [Call.GetTaswReleaseVersion releaseName])
  else if tileName = "IST" then
    some (p.tasVersion.GetIstReleaseVersion calls releaseName,
      calls ++ [Call.GetIstReleaseVersion releaseName])
  else none

/-- The method `getTileBumpInfo`: the tile's status, whether the tile is
satisfied, and the calls made so far. -/
def getTileBumpInfo (p : releasesDataProvider) (tileName releaseName : String)
    (firstReleaseV : semver.Version) (isTargetReleased : Bool) (calls : List Call) :
    (String × Bool) × List Call :=
  if releaseName = "" then (("n/a", true), calls)
  else if !isTargetReleased then (("no", false), calls)
  else
    match tileLookup p tileName releaseName calls with
    | none => (("", false), calls)
    | some (answer, calls1) =>
      if !answer.2 then (("", false), calls1)
      else
        match semver.NewVersion answer.1 with
        | none => (("", false), calls1)
        | some tasReleaseV =>
          if firstReleaseV.GreaterThan tasReleaseV then
            (("no (" ++ tasReleaseV.String ++ ")", false), calls1)
          else (("yes (" ++ tasReleaseV.String ++ ")", true), calls1)

/-- The local `isTargetReleased` of `bumpedInTiles` (lines 148-151);
`targetGolangV` is `none` for the nil pointer. -/
def isTargetReleased (targetGolangV : Option semver.Version)
    (firstGolangVersion : semver.Version) : Bool :=
  match targetGolangV with
  | none => false
  | some t => !t.GreaterThan firstGolangVersion

/-- The method `bumpedInTiles`: the three statuses, `allBumped`, and the calls
made so far. -/
def bumpedInTiles (p : releasesDataProvider) (release : config.Release)
    (firstVersionInfo : version.VersionInfo) (targetGolangV : Option semver.Version)
    (calls : List Call) : (String × String × String × Bool) × List Call :=
  match semver.NewVersion firstVersionInfo.ReleaseVersion with
  | none => (("", "", "", false), calls)
  | some firstReleaseV =>
    match semver.NewVersion firstVersionInfo.GolangVersion with
    | none => (("", "", "", false), calls)
    | some firstGolangVersion =>
      let released := isTargetReleased targetGolangV firstGolangVersion
      let tas := getTileBumpInfo p "TAS" release.TasReleaseName firstReleaseV released calls
      let tasw := getTileBumpInfo p "TASW" release.TaswReleaseName firstReleaseV released tas.2
      let ist := getTileBumpInfo p "IST" release.IstReleaseName firstReleaseV released tasw.2
      ((tas.1.1, tasw.1.1, ist.1.1, released && tas.1.2 && tasw.1.2 && ist.1.2), ist.2)

/-- Lines 93-112 of `fetch`: the released version, the first-carrying pair, the
three statuses with `allBumped`, and the calls made so far, for one release. -/
def evaluateRelease (p : releasesDataProvider) (targetGolangV : Option semver.Version)
    (release : config.Release) (calls : List Call) :
    String × version.VersionInfo × (String × String × String × Bool) × List Call :=
  if release.OnlyDevelop then ("", ⟨"", ""⟩, ("n/a", "n/a", "n/a", true), calls)
  else
    let released := p.githubVersion.GetReleasedVersion calls release
    let calls1 := calls ++ [Call.GetReleasedVersion release]
    match released.2 with
    | some _ => (released.1, ⟨"", ""⟩, ("n/a", "n/a", "n/a", false), calls1)
    | none =>
      let first := p.githubVersion.GetFirstReleasedVersion calls1 release released.1
      let calls2 := calls1 ++ [Call.GetFirstReleasedVersion release released.1]
      match first.2 with
      | some _ => (released.1, first.1, ("n/a", "n/a", "n/a", false), calls2)
      | none =>
        let bumped := bumpedInTiles p release first.1 targetGolangV calls2
        (released.1, first.1, bumped.1, bumped.2)

/-- The body of the loop of `fetch` (lines 88-127): the row of one release and
the calls made so far. -/
def fetchRelease (p : releasesDataProvider) (targetGolangV : Option semver.Version)
    (release : config.Release) (calls : List Call) : Release × List Call :=
  let dev := p.githubVersion.GetDevelopVersion calls release
  let ev := evaluateRelease p targetGolangV release (calls ++ [Call.GetDevelopVersion release])
  ({ Name := release.Name,
     URL := release.URL,
     CIURL := p.config.CIURL release,
     CIBadgeURL := "/images/concourse-icon.png",
     VersionOnDev := dev.1,
     ReleasedVersion := ev.1,
     FirstReleasedGolangVersion := ev.2.1.GolangVersion,
     FirstReleasedReleaseVersion := ev.2.1.ReleaseVersion,
     BumpedInTas := ev.2.2.1.1,
     BumpedInTasw := ev.2.2.1.2.1,
     BumpedInIst := ev.2.2.1.2.2.1,
     AllBumped := ev.2.2.1.2.2.2 }, ev.2.2.2)

/-- The loop `for _, release := range p.config.Releases` of `fetch`: `rows` is
`data.Releases`, to which each iteration appends its row. -/
def fetchLoop (p : releasesDataProvider) (targetGolangV : Option semver.Version) :
    List config.Release → List Release → List Call → List Release × List Call
  | [], rows, calls => (rows, calls)
  | release :: rest, rows, calls =>
    fetchLoop p targetGolangV rest (rows ++ [(fetchRelease p targetGolangV release calls).1])
      (fetchRelease p targetGolangV release calls).2

/-- The method `fetch`: the snapshot and the calls made so far. -/
def fetch (p : releasesDataProvider) (targetGoVersion : String) (calls : List Call) :
    ReleasesData × List Call :=
  let loop := fetchLoop p (semver.NewVersion targetGoVersion) p.config.Releases []
    (calls ++ [Call.Fetch "main"])
  ({ GolangVersion := targetGoVersion, Releases := loop.1 }, loop.2)

/-- The method `Get`.  `FETCH_INTERVAL` is the package constant, which is not
among the sources; `nowTest` is the reading of `time.Now()` in the condition of
line 63 and `nowStamp` the reading stored by line 65.  The result is the
returned snapshot, the provider after the call and the calls made so far. -/
def Get (p : releasesDataProvider) (FETCH_INTERVAL nowTest nowStamp : Int)
    (targetGoVersion : String) (calls : List Call) :
    ReleasesData × releasesDataProvider × List Call :=
  if p.lastFetchTime = 0 ∨ p.lastFetchTime + FETCH_INTERVAL < nowTest then
    let p1 := { p with lastFetchTime := nowStamp }
    let fetched := fetch p1 targetGoVersion calls
    (fetched.1, { p1 with cachedData := fetched.1 }, fetched.2)
  else (p.cachedData, p, calls)

end dataprovider

/-! ## Loading the configuration (`LoadConfig` in `config/config.go`) -/

namespace config

/-- The field of `url.URL` that `LoadConfig` reads. -/
structure URL where
  Path : String
deriving DecidableEq, Repr

/-- The library functions `LoadConfig` calls: `os.ReadFile`, `json.Unmarshal`
into a `Config`, and `url.Parse`; `Except.error` is a non-nil `error`. -/
structure Library where
  ReadFile : String → Except String String
  Unmarshal : String → Except String Config
  Parse : String → Except String URL

/-- How a call of `LoadConfig` ends: it returns a value and a nil error, it
returns an error, or the run-time system stops it because an index is out of
range. -/
inductive Outcome (α : Type) where
  | ok (value : α)
  | error (err : String)
  | outOfRange (index length : Nat)
deriving DecidableEq, Repr

/-- The call `strings.TrimLeft(s, "/")`. -/
def TrimLeft : List Char → List Char
  | [] => []
  | c :: cs => if c = '/' then TrimLeft cs else c :: cs

/-- The call `strings.Split(s, "/")`: the pieces between the slashes, one
empty piece for the empty string. -/
def Split : List Char → List (List Char)
  | [] => [[]]
  | c :: cs =>
    if c = '/' then [] :: Split cs
    else
      match Split cs with
      | [] => [[c]]
      | p :: ps => (c :: p) :: ps

/-- Lines 63-69 (and 72-78) of `LoadConfig`: the `Owner` and `Repo` read from
a URL, `parts[0]` and `parts[1]`. -/
def ownerRepo (lib : Library) (rawURL : String) : Outcome (String × String) :=
  match lib.Parse rawURL with
  | Except.error err => Outcome.error err
  | Except.ok url =>
    let parts := Split (TrimLeft url.Path.data)
    match parts[0]?, parts[1]? with
    | none, _ => Outcome.outOfRange 0 parts.length
    | some _, none => Outcome.outOfRange 1 parts.length
    | some owner, some repo => Outcome.ok (String.mk owner, String.mk repo)

/-- The loop over `cfg.Releases` of `LoadConfig`. -/
def loadReleases (lib : Library) : List Release → Outcome (List Release)
  | [] => Outcome.ok []
  | release :: rest =>
    match ownerRepo lib release.URL with
    | Outcome.error err => Outcome.error err
    | Outcome.outOfRange i n => Outcome.outOfRange i n
    | Outcome.ok (owner, repo) =>
      match loadReleases lib rest with
      | Outcome.error err => Outcome.error err
      | Outcome.outOfRange i n => Outcome.outOfRange i n
      | Outcome.ok done => Outcome.ok ({ release with Owner := owner, Repo := repo } :: done)

/-- The loop over `cfg.Plugins` of `LoadConfig`. -/
def loadPlugins (lib : Library) : List Plugin → Outcome (List Plugin)
  | [] => Outcome.ok []
  | plugin :: rest =>
    match ownerRepo lib plugin.URL with
    | Outcome.error err => Outcome.error err
    | Outcome.outOfRange i n => Outcome.outOfRange i n
    | Outcome.ok (owner, repo) =>
      match loadPlugins lib rest with
      | Outcome.error err => Outcome.error err
      | Outcome.outOfRange i n => Outcome.outOfRange i n
      | Outcome.ok done => Outcome.ok ({ plugin with Owner := owner, Repo := repo } :: done)

/-- The function `LoadConfig`. -/
def LoadConfig (lib : Library) (filePath : String) : Outcome Config :=
  match lib.ReadFile filePath with
  | Except.error err => Outcome.error err
  | Except.ok configFile =>
    match lib.Unmarshal configFile with
    | Except.error err => Outcome.error err
    | Except.ok cfg =>
      match loadReleases lib cfg.Releases with
      | Outcome.error err => Outcome.error err
      | Outcome.outOfRange i n => Outcome.outOfRange i n
      | Outcome.ok releases =>
        match loadPlugins lib cfg.Plugins with
        | Outcome.error err => Outcome.error err
        | Outcome.outOfRange i n => Outcome.outOfRange i n
        | Outcome.ok plugins => Outcome.ok { cfg with Releases := releases, Plugins := plugins }

end config

/-! ## Vocabulary of the statements about versions -/

namespace semver

/-- A part that may stand in a parsed pre-release: if it is numeric, it has
no leading zero unless it is a single digit. -/
def PartOk (part : List Char) : Prop :=
  part.all isNum = true → ¬ (1 < part.length ∧ part.head? = some '0')

/-- The invariant of a parsed version: its pre-release passed
`validatePrerelease`. -/
def Version.Valid (v : Version) : Prop := validatePrerelease v.pre.data = true

/-- The order `v >= o` of the library: `Compare` is not negative. -/
def Version.GreaterThanEqual (v o : Version) : Bool := decide (v.Compare o ≥ 0)

end semver

/-! ## Vocabulary of the statements -/

namespace dataprovider

/-- The status is the not-applicable value. -/
def statusNotApplicable (status : String) : Bool := status = "n/a"

/-- The status is a confirmed one: it reads `yes (...`. -/
def statusConfirmed (status : String) : Bool := "yes (".data.isPrefixOf status.data

/-- The calls made so far when the loop of `fetch` reaches the release at
index `i` of the configured list. -/
def callsAt (p : releasesDataProvider) (targetGoVersion : String) (calls : List Call)
    (i : Nat) : List Call :=
  (fetchLoop p (semver.NewVersion targetGoVersion) (p.config.Releases.take i) []
    (calls ++ [Call.Fetch "main"])).2

/-- The answer to `GetReleasedVersion` in the iteration for `release` that
starts after `calls`. -/
def releasedAnswer (p : releasesDataProvider) (release : config.Release) (calls : List Call) :
    String × Option String :=
  p.githubVersion.GetReleasedVersion (calls ++ [Call.GetDevelopVersion release]) release

/-- The answer to `GetFirstReleasedVersion` in the iteration for `release` that
starts after `calls`. -/
def firstAnswer (p : releasesDataProvider) (release : config.Release) (calls : List Call) :
    version.VersionInfo × Option String :=
  p.githubVersion.GetFirstReleasedVersion
    (calls ++ [Call.GetDevelopVersion release] ++ [Call.GetReleasedVersion release]) release
    (releasedAnswer p release calls).1

/-- The calls made so far when the iteration for `release` that starts after
`calls` enters `bumpedInTiles`. -/
def callsAtTiles (p : releasesDataProvider) (release : config.Release) (calls : List Call) :
    List Call :=
  calls ++ [Call.GetDevelopVersion release] ++ [Call.GetReleasedVersion release]
    ++ [Call.GetFirstReleasedVersion release (releasedAnswer p release calls).1]

/-- The target toolchain version is confirmed released in the release, in the
iteration that starts after `calls`: both fetches answer without an error, both
fields of the pair parse, and the target parses and is not greater than the
first-carrying toolchain version. -/
def TargetReleased (p : releasesDataProvider) (targetGolangV : Option semver.Version)
    (release : config.Release) (calls : List Call) : Prop :=
  (releasedAnswer p release calls).2 = none ∧ (firstAnswer p release calls).2 = none ∧
  ∃ firstReleaseV firstGolangVersion target,
    semver.NewVersion (firstAnswer p release calls).1.ReleaseVersion = some firstReleaseV ∧
    semver.NewVersion (firstAnswer p release calls).1.GolangVersion = some firstGolangVersion ∧
    targetGolangV = some target ∧ target.GreaterThan firstGolangVersion = false

/-- The call is one of the three component-version lookups of the tile
fetcher. -/
def Call.isTileLookup : Call → Bool
  | Call.GetTasReleaseVersion _ => true
  | Call.GetTaswReleaseVersion _ => true
  | Call.GetIstReleaseVersion _ => true
  | _ => false

/-- The call is a refresh of the tile fetcher. -/
def Call.isRefresh : Call → Bool
  | Call.Fetch _ => true
  | _ => false

/-- The calls made so far after `getTileBumpInfo` ran for a tile: the lookup of
the tile is added when a component name is configured and the target is
released. -/
def tileCalls (tileName releaseName : String) (released : Bool) (calls : List Call) :
    List Call :=
  if releaseName = "" then calls
  else if !released then calls
  else if tileName = "TAS" then calls ++ [Call.GetTasReleaseVersion releaseName]
  else if tileName = "TASW" then calls ++ [Call.GetTaswReleaseVersion releaseName]
  else if tileName = "IST" then calls ++ [Call.GetIstReleaseVersion releaseName]
  else calls

/-- The status of a tile when the target is not released: `n/a` without a
component name, `no` with one. -/
def statusNotReleased (releaseName : String) : String :=
  if releaseName = "" then "n/a" else "no"

/-- A tile with a configured component name is found, by the lookup made after
`calls`, at a version that parses and is at or above `firstReleaseV`. -/
def TileAtLeast (p : releasesDataProvider) (tileName releaseName : String)
    (firstReleaseV : semver.Version) (calls : List Call) : Prop :=
  releaseName ≠ "" →
    ∃ answer calls1 tileV,
      tileLookup p tileName releaseName calls = some ((answer, true), calls1) ∧
      semver.NewVersion answer = some tileV ∧
      tileV.GreaterThanEqual firstReleaseV = true

/-- The calls `later` continue the calls `earlier` without a refresh of the
tile fetcher among the added calls. -/
def NoRefreshSince (earlier later : List Call) : Prop :=
  ∃ rest, later = earlier ++ rest ∧ ∀ c ∈ rest, Call.isRefresh c = false

/-- The answers the collaborators give to the calls of the iteration for
`release` that starts after `calls`: the develop version, the released version,
the first-carrying pair, and the answers of the three tile lookups at the
places where `bumpedInTiles` makes them when the target is released. -/
def releaseAnswers (p : releasesDataProvider) (release : config.Release) (calls : List Call) :
    (String × Option String) × (String × Option String) × (version.VersionInfo × Option String)
      × (String × Bool) × (String × Bool) × (String × Bool) :=
  (p.githubVersion.GetDevelopVersion calls release,
   releasedAnswer p release calls,
   firstAnswer p release calls,
   p.tasVersion.GetTasReleaseVersion (callsAtTiles p release calls) release.TasReleaseName,
   p.tasVersion.GetTaswReleaseVersion
     (tileCalls "TAS" release.TasReleaseName true (callsAtTiles p release calls))
     release.TaswReleaseName,
   p.tasVersion.GetIstReleaseVersion
     (tileCalls "TASW" release.TaswReleaseName true
       (tileCalls "TAS" release.TasReleaseName true (callsAtTiles p release calls)))
     release.IstReleaseName)

/-- The row without its develop version. -/
def Release.withoutVersionOnDev (row : Release) : Release :=
  { row with VersionOnDev := "" }

/-- The answer `after` of a tile lookup is the answer `before` with the tile
upgraded: it is the same answer, or both find a version that parses and the
version of `after` is greater than or equal to the version of `before`. -/
def Upgraded (before after : String × Bool) : Prop :=
  after = before ∨
    ∃ v v', before.2 = true ∧ after.2 = true ∧
      semver.NewVersion before.1 = some v ∧ semver.NewVersion after.1 = some v' ∧
      semver.Version.GreaterThanEqual v' v = true

end dataprovider

/-! ## Sample collaborators -/

namespace sample

/-- A release with a component in the TAS and IST tiles. -/
def routing : config.Release :=
  { Name := "routing", URL := "https://github.com/cloudfoundry/routing-release",
    Owner := "cloudfoundry", Repo := "routing-release", Platform := "linux",
    TasReleaseName := "routing", TaswReleaseName := "", IstReleaseName := "routing",
    CITeam := "networking", CIPipeline := "routing-release", OnlyDevelop := false }

/-- A develop-only release. -/
def healthcheck : config.Release :=
  { Name := "healthcheck", URL := "https://github.com/cloudfoundry/healthchecker-release",
    Owner := "cloudfoundry", Repo := "healthchecker-release", Platform := "linux",
    TasReleaseName := "healthchecker", TaswReleaseName := "", IstReleaseName := "",
    CITeam := "networking", CIPipeline := "healthchecker-release", OnlyDevelop := true }

/-- A configuration with the two releases. -/
def cfg : config.Config :=
  { CIBaseURL := "https://ci.example.org", Releases := [routing, healthcheck],
    Images := [], Plugins := [] }

/-- A source fetcher that always answers: first carried by 1.21.0 in v2.3.0. -/
def github : dataprovider.versionFetcher :=
  { GetDevelopVersion := fun _ _ => ("1.22.0", none),
    GetReleasedVersion := fun _ _ => ("v2.4.0", none),
    GetFirstReleasedVersion := fun _ _ _ => (⟨"1.21.0", "v2.3.0"⟩, none) }

/-- A source fetcher whose released-version call fails. -/
def githubDown : dataprovider.versionFetcher :=
  { GetDevelopVersion := fun _ _ => ("", some "unreachable"),
    GetReleasedVersion := fun _ _ => ("", some "unreachable"),
    GetFirstReleasedVersion := fun _ _ _ => (⟨"", ""⟩, some "unreachable") }

/-- A tile fetcher: TAS carries v2.3.0, TASW nothing, IST v2.2.0. -/
def tiles : dataprovider.tasVersionProvider :=
  { Fetch := fun _ _ => none,
    GetTasReleaseVersion := fun _ _ => ("v2.3.0", true),
    GetTaswReleaseVersion := fun _ _ => ("", false),
    GetIstReleaseVersion := fun _ _ => ("v2.2.0", true) }

/-- A tile fetcher whose refresh fails and that carries v2.5.0 everywhere. -/
def tilesAhead : dataprovider.tasVersionProvider :=
  { Fetch := fun _ _ => some "refresh failed",
    GetTasReleaseVersion := fun _ _ => ("v2.5.0", true),
    GetTaswReleaseVersion := fun _ _ => ("v2.5.0", true),
    GetIstReleaseVersion := fun _ _ => ("v2.5.0", true) }

/-- A provider that has not fetched yet. -/
def provider : dataprovider.releasesDataProvider :=
  dataprovider.NewReleasesDataProvider github tiles cfg

/-- A provider whose tiles are all ahead. -/
def providerAhead : dataprovider.releasesDataProvider :=
  dataprovider.NewReleasesDataProvider github tilesAhead cfg

/-- A provider whose source fetcher is down. -/
def providerDown : dataprovider.releasesDataProvider :=
  dataprovider.NewReleasesDataProvider githubDown tiles cfg

/-- A provider that holds the snapshot it built for 1.21.0 at time 1000. -/
def providerCached : dataprovider.releasesDataProvider :=
  { provider with
    lastFetchTime := 1000
    cachedData := (dataprovider.fetch provider "1.21.0" []).1 }

/-- A source fetcher that writes the toolchain version with the `go` prefix:
first carried by go1.21 in v2.3.0. -/
def githubGo : dataprovider.versionFetcher :=
  { GetDevelopVersion := fun _ _ => ("go1.22", none),
    GetReleasedVersion := fun _ _ => ("v2.4.0", none),
    GetFirstReleasedVersion := fun _ _ _ => (⟨"go1.21", "v2.3.0"⟩, none) }

/-- A source fetcher that answers: first carried by 1.21 in v2.3.0. -/
def githubPlain : dataprovider.versionFetcher :=
  { GetDevelopVersion := fun _ _ => ("1.22", none),
    GetReleasedVersion := fun _ _ => ("v2.4.0", none),
    GetFirstReleasedVersion := fun _ _ _ => (⟨"1.21", "v2.3.0"⟩, none) }

/-- The provider of the scenario with `go`-prefixed toolchain versions. -/
def providerGo : dataprovider.releasesDataProvider :=
  dataprovider.NewReleasesDataProvider githubGo tiles cfg

/-- The provider of the scenario with plain toolchain versions. -/
def providerPlain : dataprovider.releasesDataProvider :=
  dataprovider.NewReleasesDataProvider githubPlain tiles cfg

/-- A release with a component in each of the three tiles. -/
def diego : config.Release :=
  { Name := "diego", URL := "https://github.com/cloudfoundry/diego-release",
    Owner := "cloudfoundry", Repo := "diego-release", Platform := "linux",
    TasReleaseName := "diego", TaswReleaseName := "diego", IstReleaseName := "diego",
    CITeam := "diego", CIPipeline := "diego-release", OnlyDevelop := false }

/-- A configuration with the three releases. -/
def cfgThree : config.Config :=
  { CIBaseURL := "https://ci.example.org", Releases := [diego, routing, healthcheck],
    Images := [], Plugins := [] }

/-- A provider over the three releases; the TASW tile finds no component. -/
def providerThree : dataprovider.releasesDataProvider :=
  dataprovider.NewReleasesDataProvider github tiles cfgThree

/-- A tile fetcher that carries v2.6.0 everywhere. -/
def tilesNewer : dataprovider.tasVersionProvider :=
  { Fetch := fun _ _ => none,
    GetTasReleaseVersion := fun _ _ => ("v2.6.0", true),
    GetTaswReleaseVersion := fun _ _ => ("v2.6.0", true),
    GetIstReleaseVersion := fun _ _ => ("v2.6.0", true) }

/-- A configuration file with two releases; the URL of the second has an
owner and no repository. -/
def configFile : String :=
  "\x7b\"ci_url\": \"https://ci.example.org\", \"releases\": [" ++
  "\x7b\"name\": \"routing\", \"url\": \"https://github.com/cloudfoundry/routing-release\"\x7d, " ++
  "\x7b\"name\": \"cf\", \"url\": \"https://github.com/cloudfoundry\"\x7d]\x7d"

/-- What `json.Unmarshal` reads from `configFile`. -/
def configRead : config.Config :=
  { CIBaseURL := "https://ci.example.org",
    Releases :=
      [{ Name := "routing", URL := "https://github.com/cloudfoundry/routing-release",
         Owner := "", Repo := "", Platform := "", TasReleaseName := "",
         TaswReleaseName := "", IstReleaseName := "", CITeam := "", CIPipeline := "",
         OnlyDevelop := false },
       { Name := "cf", URL := "https://github.com/cloudfoundry",
         Owner := "", Repo := "", Platform := "", TasReleaseName := "",
         TaswReleaseName := "", IstReleaseName := "", CITeam := "", CIPipeline := "",
         OnlyDevelop := false }],
    Images := [], Plugins := [] }

/-- The library functions on the sample inputs: the file `config.json` holds
`configFile`, and `url.Parse` gives the two URLs of the file the paths
`/cloudfoundry/routing-release` and `/cloudfoundry`. -/
def library : config.Library :=
  { ReadFile := fun path =>
      if path = "config.json" then Except.ok configFile else Except.error "no such file",
    Unmarshal := fun content =>
      if content = configFile then Except.ok configRead else Except.error "invalid character",
    Parse := fun rawURL =>
      if rawURL = "https://github.com/cloudfoundry/routing-release" then
        Except.ok ⟨"/cloudfoundry/routing-release"⟩
      else if rawURL = "https://github.com/cloudfoundry" then Except.ok ⟨"/cloudfoundry"⟩
      else Except.error "parse error" }

/-- A source fetcher whose first-carrying release version does not parse. -/
def githubBadPair : dataprovider.versionFetcher :=
  { GetDevelopVersion := fun _ _ => ("1.22.0", none),
    GetReleasedVersion := fun _ _ => ("v2.4.0", none),
    GetFirstReleasedVersion := fun _ _ _ => (⟨"1.21.0", "two-point-three"⟩, none) }

/-- A provider whose first-carrying release version does not parse. -/
def providerBadPair : dataprovider.releasesDataProvider :=
  dataprovider.NewReleasesDataProvider githubBadPair tiles cfg

end sample

/-! ## Facts about the version comparator -/

namespace semver

theorem char_eq_of_toNat {c d : Char} (h : c.toNat = d.toNat) : c = d := by
  have := congrArg Char.ofNat h
  simpa using this

theorem compareSegment_swap (a b : Nat) : compareSegment b a = - compareSegment a b := by
  unfold compareSegment
  split_ifs <;> first | rfl | omega

theorem strGreater_swap : ∀ s o : List Char, s ≠ o → strGreater o s = !strGreater s o
  | [], [], h => absurd rfl h
  | [], _ :: _, _ => by simp [strGreater]
  | _ :: _, [], _ => by simp [strGreater]
  | a :: s, b :: o, h => by
    unfold strGreater
    by_cases h1 : a.toNat > b.toNat
    · have h2 : ¬ b.toNat > a.toNat := by omega
      have h3 : b.toNat < a.toNat := h1
      simp [h1, h2, h3]
    · by_cases h2 : a.toNat < b.toNat
      · have h3 : b.toNat > a.toNat := h2
        simp [h1, h2, h3]
      · have hab : a = b := char_eq_of_toNat (by omega)
        have hso : s ≠ o := fun e => h (by rw [hab, e])
        have h3 : ¬ b.toNat > a.toNat := by omega
        have h4 : ¬ b.toNat < a.toNat := by omega
        simp [h1, h2, h3, h4, strGreater_swap s o hso]

/-- The value of a digit string, split at its first character. -/
theorem decimalValue_foldl (s : List Char) (acc : Nat) :
    s.foldl (fun acc c => acc * 10 + (c.toNat - 48)) acc
      = acc * 10 ^ s.length + decimalValue s := by
  induction s generalizing acc with
  | nil => simp [decimalValue]
  | cons c s ih =>
    simp only [List.foldl_cons, decimalValue, List.length_cons]
    rw [ih, ih (0 * 10 + (c.toNat - 48))]
    ring

theorem decimalValue_cons (c : Char) (s : List Char) :
    decimalValue (c :: s) = (c.toNat - 48) * 10 ^ s.length + decimalValue s := by
  have := decimalValue_foldl s (0 * 10 + (c.toNat - 48))
  simp only [decimalValue, List.foldl_cons] at this ⊢
  rw [this]; ring

theorem decimalValue_lt (s : List Char) (h : s.all isNum = true) :
    decimalValue s < 10 ^ s.length := by
  induction s with
  | nil => simp [decimalValue]
  | cons c s ih =>
    simp only [List.all_cons, Bool.and_eq_true] at h
    have hs := ih h.2
    have hc : c.toNat - 48 ≤ 9 := by
      have := h.1
      simp only [isNum, Bool.and_eq_true, decide_eq_true_eq] at this
      omega
    rw [decimalValue_cons, List.length_cons, pow_succ]
    nlinarith

theorem isNum_digit {c : Char} (h : isNum c = true) : 48 ≤ c.toNat ∧ c.toNat ≤ 57 := by
  simpa [isNum] using h

theorem decimalValue_inj_of_length : ∀ s o : List Char, s.all isNum = true → o.all isNum = true →
    s.length = o.length → decimalValue s = decimalValue o → s = o
  | [], [], _, _, _, _ => rfl
  | [], _ :: _, _, _, hl, _ => by simp at hl
  | _ :: _, [], _, _, hl, _ => by simp at hl
  | c :: s, d :: o, hs, ho, hl, hv => by
    simp only [List.all_cons, Bool.and_eq_true] at hs ho
    simp only [List.length_cons, Nat.add_right_cancel_iff] at hl
    rw [decimalValue_cons, decimalValue_cons, hl] at hv
    have h1 := decimalValue_lt s hs.2
    have h2 := decimalValue_lt o ho.2
    rw [hl] at h1
    have hc := isNum_digit hs.1
    have hd := isNum_digit ho.1
    have hpos : 0 < 10 ^ o.length := by positivity
    have hcd : c.toNat - 48 = d.toNat - 48 := by
      rcases Nat.lt_trichotomy (c.toNat - 48) (d.toNat - 48) with h | h | h
      · exfalso
        have : (c.toNat - 48 + 1) * 10 ^ o.length ≤ (d.toNat - 48) * 10 ^ o.length :=
          Nat.mul_le_mul_right _ h
        nlinarith
      · exact h
      · exfalso
        have : (d.toNat - 48 + 1) * 10 ^ o.length ≤ (c.toNat - 48) * 10 ^ o.length :=
          Nat.mul_le_mul_right _ h
        nlinarith
    have hvs : decimalValue s = decimalValue o := by
      rw [hcd] at hv
      omega
    have hchar : c = d := char_eq_of_toNat (by omega)
    rw [hchar, decimalValue_inj_of_length s o hs.2 ho.2 hl hvs]

theorem decimalValue_lt_of_length : ∀ s o : List Char, s.all isNum = true → o.all isNum = true →
    PartOk o → s ≠ [] → s.length < o.length → decimalValue s < decimalValue o
  | _, [], _, _, _, _, hl => by simp at hl
  | s, d :: o, hs, ho, hok, hne, hl => by
    have hlen : 1 < (d :: o).length := by
      cases s with
      | nil => exact absurd rfl hne
      | cons a s => simp only [List.length_cons] at hl ⊢; omega
    have hd0 : d ≠ '0' := by
      intro h
      exact hok ho ⟨hlen, by simp [h]⟩
    simp only [List.all_cons, Bool.and_eq_true] at ho
    have hd := isNum_digit ho.1
    have hd1 : 1 ≤ d.toNat - 48 := by
      by_contra hcon
      apply hd0
      apply char_eq_of_toNat
      have : d.toNat = 48 := by omega
      rw [this]; rfl
    have h1 := decimalValue_lt s hs
    rw [decimalValue_cons]
    simp only [List.length_cons] at hl
    have hpow : 10 ^ s.length ≤ 10 ^ o.length := Nat.pow_le_pow_right (by norm_num) (by omega)
    have : 1 * 10 ^ o.length ≤ (d.toNat - 48) * 10 ^ o.length := Nat.mul_le_mul_right _ hd1
    omega

theorem decimalValue_inj (s o : List Char) (hs : s.all isNum = true) (ho : o.all isNum = true)
    (hsok : PartOk s) (hook : PartOk o) (hsne : s ≠ []) (hone : o ≠ [])
    (hv : decimalValue s = decimalValue o) : s = o := by
  rcases Nat.lt_trichotomy s.length o.length with h | h | h
  · have := decimalValue_lt_of_length s o hs ho hook hsne h
    omega
  · exact decimalValue_inj_of_length s o hs ho h hv
  · have := decimalValue_lt_of_length o s ho hs hsok hone h
    omega

theorem ParseUint_some {s : List Char} {n : Nat} (h : ParseUint s = some n) :
    s ≠ [] ∧ s.all isNum = true ∧ decimalValue s = n := by
  unfold ParseUint at h
  split_ifs at h with h1 h2 h3
  exact ⟨h1, h2, by simpa using h⟩

theorem comparePrePart_swap (s o : List Char) (hs : PartOk s) (ho : PartOk o) :
    comparePrePart o s = - comparePrePart s o := by
  unfold comparePrePart
  by_cases hso : s = o
  · simp [hso]
  · have hos : ¬ o = s := fun e => hso e.symm
    simp only [hso, hos, if_false]
    by_cases h1 : s = []
    · have h2 : o ≠ [] := fun e => hso (by rw [h1, e])
      simp [h1, h2]
    · by_cases h2 : o = []
      · simp [h1, h2]
      · simp only [h1, h2, if_false]
        cases hpo : ParseUint o with
        | none =>
          cases hps : ParseUint s with
          | none =>
            simp only [strGreater_swap s o hso]
            cases strGreater s o <;> simp
          | some si => simp
        | some oi =>
          cases hps : ParseUint s with
          | none => simp
          | some si =>
            obtain ⟨_, hod, hov⟩ := ParseUint_some hpo
            obtain ⟨_, hsd, hsv⟩ := ParseUint_some hps
            have hne : si ≠ oi := by
              intro e
              exact hso (decimalValue_inj s o hsd hod hs ho h1 h2 (by rw [hsv, hov, e]))
            simp only
            split_ifs <;> first | rfl | omega

theorem PartOk_nil : PartOk [] := by
  intro _ h
  simp at h

theorem PartOk_of_validate {p : List Char} (h : validatePrerelease p = true) :
    ∀ part ∈ splitDot p, PartOk part := by
  intro part hmem hnum
  unfold validatePrerelease at h
  rw [List.all_eq_true] at h
  have := h part hmem
  simp only [containsOnly, hnum, if_true] at this
  intro hcon
  simp [hcon.1, hcon.2] at this

theorem PartOk_getD {l : List (List Char)} (h : ∀ part ∈ l, PartOk part) (i : Nat) :
    PartOk (l.getD i []) := by
  by_cases hi : i < l.length
  · rw [List.getD_eq_getElem l [] hi]
    exact h _ (List.getElem_mem hi)
  · rw [List.getD_eq_default l [] (by omega)]
    exact PartOk_nil

theorem comparePrereleaseLoop_swap (sparts oparts : List (List Char))
    (hs : ∀ part ∈ sparts, PartOk part) (ho : ∀ part ∈ oparts, PartOk part) :
    ∀ n i, comparePrereleaseLoop oparts sparts n i = - comparePrereleaseLoop sparts oparts n i
  | 0, _ => by simp [comparePrereleaseLoop]
  | n + 1, i => by
    simp only [comparePrereleaseLoop]
    rw [comparePrePart_swap _ _ (PartOk_getD hs i) (PartOk_getD ho i),
      comparePrereleaseLoop_swap sparts oparts hs ho n (i + 1)]
    generalize comparePrePart (sparts.getD i []) (oparts.getD i []) = d
    by_cases hd : d = 0
    · simp [hd]
    · simp [hd]

theorem comparePrerelease_swap (v o : List Char) (hv : validatePrerelease v = true)
    (ho : validatePrerelease o = true) : comparePrerelease o v = - comparePrerelease v o := by
  unfold comparePrerelease
  simp only
  have hl : (if (splitDot v).length > (splitDot o).length then (splitDot v).length
      else (splitDot o).length)
      = (if (splitDot o).length > (splitDot v).length then (splitDot o).length
      else (splitDot v).length) := by
    split_ifs <;> omega
  rw [hl]
  exact comparePrereleaseLoop_swap _ _ (PartOk_of_validate hv) (PartOk_of_validate ho) _ _

theorem validatePrerelease_nil : validatePrerelease [] = true := by decide

theorem NewVersion_valid {s : String} {v : Version} (h : NewVersion s = some v) : v.Valid := by
  unfold NewVersion at h
  split at h
  · cases h
  · split at h
    · cases h
    · split at h
      · cases h
      · split at h
        · cases h
        · split_ifs at h with h1 h2
          cases h
          unfold Version.Valid
          simp only
          rename_i m5 m8 _ _ _ _ _ _ _ _ _ _
          by_cases hm : m5 = []
          · rw [hm]; exact validatePrerelease_nil
          · simpa [hm] using h1

theorem Compare_swap (v o : Version) (hv : v.Valid) (ho : o.Valid) :
    o.Compare v = - v.Compare o := by
  unfold Version.Compare
  rw [compareSegment_swap v.major o.major, compareSegment_swap v.minor o.minor,
    compareSegment_swap v.patch o.patch]
  by_cases h1 : compareSegment v.major o.major = 0
  · by_cases h2 : compareSegment v.minor o.minor = 0
    · by_cases h3 : compareSegment v.patch o.patch = 0
      · simp only [h1, h2, h3, neg_zero, ne_eq, not_true_eq_false, if_false]
        by_cases hvp : v.pre = ""
        · by_cases hop : o.pre = ""
          · simp [hvp, hop]
          · simp [hvp, hop]
        · by_cases hop : o.pre = ""
          · simp [hvp, hop]
          · simp only [hvp, hop, and_self, if_false]
            exact comparePrerelease_swap _ _ hv ho
      · simp [h1, h2, h3]
    · simp [h1, h2]
  · simp [h1]

theorem comparePrereleaseLoop_self (parts : List (List Char)) :
    ∀ n i, comparePrereleaseLoop parts parts n i = 0
  | 0, _ => by simp [comparePrereleaseLoop]
  | n + 1, i => by
    simp [comparePrereleaseLoop, comparePrePart, comparePrereleaseLoop_self parts n (i + 1)]

theorem Compare_self (v : Version) : v.Compare v = 0 := by
  unfold Version.Compare
  have h : ∀ a : Nat, compareSegment a a = 0 := fun a => by simp [compareSegment]
  simp only [h, ne_eq, not_true_eq_false, if_false, and_self]
  split_ifs
  · rfl
  · exact comparePrereleaseLoop_self _ _ _

end semver

/-! ## Facts about the report pass -/

namespace dataprovider

theorem fetchLoop_rows (p : releasesDataProvider) (tv : Option semver.Version) :
    ∀ (rs : List config.Release) (rows : List Release) (calls : List Call),
      fetchLoop p tv rs rows calls
        = (rows ++ (fetchLoop p tv rs [] calls).1, (fetchLoop p tv rs [] calls).2)
  | [], rows, calls => by simp [fetchLoop]
  | r :: rs, rows, calls => by
    rw [fetchLoop, fetchLoop_rows p tv rs (rows ++ _), fetchLoop,
      fetchLoop_rows p tv rs ([] ++ _)]
    simp

theorem fetchLoop_cons (p : releasesDataProvider) (tv : Option semver.Version)
    (r : config.Release) (rs : List config.Release) (calls : List Call) :
    fetchLoop p tv (r :: rs) [] calls
      = ((fetchRelease p tv r calls).1 :: (fetchLoop p tv rs [] (fetchRelease p tv r calls).2).1,
          (fetchLoop p tv rs [] (fetchRelease p tv r calls).2).2) := by
  rw [fetchLoop, fetchLoop_rows]
  simp

theorem fetchLoop_length (p : releasesDataProvider) (tv : Option semver.Version) :
    ∀ (rs : List config.Release) (calls : List Call),
      (fetchLoop p tv rs [] calls).1.length = rs.length
  | [], calls => by simp [fetchLoop]
  | r :: rs, calls => by
    rw [fetchLoop_cons]
    simp [fetchLoop_length p tv rs]

/-- Row `i` of the loop is the row of release `i`, computed after the calls of
the releases before it. -/
theorem fetchLoop_getElem? (p : releasesDataProvider) (tv : Option semver.Version) :
    ∀ (rs : List config.Release) (calls : List Call) (i : Nat) (r : config.Release),
      rs[i]? = some r →
      (fetchLoop p tv rs [] calls).1[i]?
        = some (fetchRelease p tv r (fetchLoop p tv (rs.take i) [] calls).2).1
  | [], _, _, _, h => by simp at h
  | r0 :: rs, calls, 0, r, h => by
    simp only [List.getElem?_cons_zero, Option.some.injEq] at h
    rw [fetchLoop_cons]
    simp [h, fetchLoop]
  | r0 :: rs, calls, i + 1, r, h => by
    simp only [List.getElem?_cons_succ] at h
    rw [fetchLoop_cons]
    simp only [List.getElem?_cons_succ, List.take_succ_cons]
    rw [fetchLoop_getElem? p tv rs _ i r h, fetchLoop_cons]

/-- Row `i` of a fetch pass is the row of release `i`. -/
theorem fetch_row (p : releasesDataProvider) (target : String) (calls : List Call) (i : Nat)
    (r : config.Release) (h : p.config.Releases[i]? = some r) :
    (fetch p target calls).1.Releases[i]?
      = some (fetchRelease p (semver.NewVersion target) r (callsAt p target calls i)).1 := by
  unfold fetch callsAt
  exact fetchLoop_getElem? p _ _ _ i r h

theorem GreaterThan_swap {v o : semver.Version} (hv : v.Valid) (ho : o.Valid) :
    o.GreaterThan v = !v.GreaterThanEqual o := by
  unfold semver.Version.GreaterThan semver.Version.GreaterThanEqual
  rw [semver.Compare_swap v o hv ho]
  by_cases h : v.Compare o ≥ 0
  · have h2 : ¬ (-v.Compare o > 0) := by omega
    simp [h, h2]
  · have h2 : -v.Compare o > 0 := by omega
    simp [h, h2]

/-- The result of `getTileBumpInfo` when the target is released and the tile's
version is found and parses. -/
theorem getTileBumpInfo_found (p : releasesDataProvider)
    (tileName releaseName tileReleaseVersion : String)
    (firstReleaseV tileV : semver.Version) (calls calls1 : List Call)
    (hName : releaseName ≠ "") (hFirst : firstReleaseV.Valid)
    (hFound : tileLookup p tileName releaseName calls = some ((tileReleaseVersion, true), calls1))
    (hTile : semver.NewVersion tileReleaseVersion = some tileV) :
    (getTileBumpInfo p tileName releaseName firstReleaseV true calls).1
      = if tileV.GreaterThanEqual firstReleaseV = true then ("yes (" ++ tileV.String ++ ")", true)
        else ("no (" ++ tileV.String ++ ")", false) := by
  have hswap := GreaterThan_swap (semver.NewVersion_valid hTile) hFirst
  unfold getTileBumpInfo
  simp only [hName, if_false, Bool.not_true, hFound, hTile, hswap]
  cases tileV.GreaterThanEqual firstReleaseV <;> simp

/-- C1: with the target released, a component name configured, the tile's
version found and parsed, the status is `yes (<tile version>)` and satisfied
exactly when the tile's version is greater than or equal to the first-carrying
release version, and `no (<tile version>)` and unsatisfied otherwise; equal
versions give `yes`. -/
theorem getTileBumpInfo_confirmed_iff (p : releasesDataProvider)
    (tileName releaseName first tileReleaseVersion : String)
    (firstReleaseV tileV : semver.Version) (calls calls1 : List Call)
    (hName : releaseName ≠ "")
    (hFirst : semver.NewVersion first = some firstReleaseV)
    (hFound : tileLookup p tileName releaseName calls = some ((tileReleaseVersion, true), calls1))
    (hTile : semver.NewVersion tileReleaseVersion = some tileV) :
    ((getTileBumpInfo p tileName releaseName firstReleaseV true calls).1
        = ("yes (" ++ tileV.String ++ ")", true)
      ↔ tileV.GreaterThanEqual firstReleaseV = true) ∧
    (tileV.GreaterThanEqual firstReleaseV = false →
      (getTileBumpInfo p tileName releaseName firstReleaseV true calls).1
        = ("no (" ++ tileV.String ++ ")", false)) ∧
    (tileV.Compare firstReleaseV = 0 →
      (getTileBumpInfo p tileName releaseName firstReleaseV true calls).1
        = ("yes (" ++ tileV.String ++ ")", true)) := by
  rw [getTileBumpInfo_found p tileName releaseName tileReleaseVersion firstReleaseV tileV calls
    calls1 hName (semver.NewVersion_valid hFirst) hFound hTile]
  refine ⟨?_, ?_, ?_⟩
  · cases tileV.GreaterThanEqual firstReleaseV <;> simp
  · intro h
    simp [h]
  · intro h
    have : tileV.GreaterThanEqual firstReleaseV = true := by
      simp [semver.Version.GreaterThanEqual, h]
    simp [this]

/-- The TAS tile at v2.3.0 against the required v2.3.0 is confirmed. -/
theorem getTileBumpInfo_confirmed_iff_witness :
    (getTileBumpInfo sample.provider "TAS" "routing" ⟨2, 3, 0, "", "", "v2.3.0"⟩ true []).1
      = ("yes (2.3.0)", true) :=
  (getTileBumpInfo_confirmed_iff sample.provider "TAS" "routing" "v2.3.0" "v2.3.0"
    ⟨2, 3, 0, "", "", "v2.3.0"⟩ ⟨2, 3, 0, "", "", "v2.3.0"⟩ [] [Call.GetTasReleaseVersion "routing"]
    (by decide) (by decide) (by decide) (by decide)).2.2 (by decide)

theorem yes_data (x : String) :
    ("yes (" ++ x ++ ")").data = 'y' :: 'e' :: 's' :: ' ' :: '(' :: (x.data ++ [')']) := by
  simp [String.data_append]

theorem no_data (x : String) :
    ("no (" ++ x ++ ")").data = 'n' :: 'o' :: ' ' :: '(' :: (x.data ++ [')']) := by
  simp [String.data_append]

theorem statusConfirmed_yes (x : String) : statusConfirmed ("yes (" ++ x ++ ")") = true := by
  unfold statusConfirmed
  rw [yes_data]
  simp [List.isPrefixOf]

theorem statusConfirmed_no (x : String) : statusConfirmed ("no (" ++ x ++ ")") = false := by
  unfold statusConfirmed
  rw [no_data]
  rfl

theorem statusNotApplicable_yes (x : String) :
    statusNotApplicable ("yes (" ++ x ++ ")") = false := by
  unfold statusNotApplicable
  simp only [decide_eq_false_iff_not]
  intro h
  have := congrArg String.data h
  rw [yes_data] at this
  simp at this

theorem statusNotApplicable_no (x : String) :
    statusNotApplicable ("no (" ++ x ++ ")") = false := by
  unfold statusNotApplicable
  simp only [decide_eq_false_iff_not]
  intro h
  have := congrArg String.data h
  rw [no_data] at this
  simp at this

/-- The five outcomes of `getTileBumpInfo`. -/
theorem getTileBumpInfo_cases (p : releasesDataProvider) (tileName releaseName : String)
    (firstReleaseV : semver.Version) (released : Bool) (calls : List Call) :
    (getTileBumpInfo p tileName releaseName firstReleaseV released calls).1 = ("n/a", true) ∨
    (getTileBumpInfo p tileName releaseName firstReleaseV released calls).1 = ("no", false) ∨
    (getTileBumpInfo p tileName releaseName firstReleaseV released calls).1 = ("", false) ∨
    (∃ v : semver.Version,
      (getTileBumpInfo p tileName releaseName firstReleaseV released calls).1
        = ("no (" ++ v.String ++ ")", false)) ∨
    (∃ v : semver.Version,
      (getTileBumpInfo p tileName releaseName firstReleaseV released calls).1
        = ("yes (" ++ v.String ++ ")", true)) := by
  unfold getTileBumpInfo
  split_ifs
  · simp
  · simp
  · split
    · simp
    · split_ifs
      · simp
      · split
        · simp
        · rename_i v _
          split_ifs
          · exact Or.inr (Or.inr (Or.inr (Or.inl ⟨v, rfl⟩)))
          · exact Or.inr (Or.inr (Or.inr (Or.inr ⟨v, rfl⟩)))

/-- A tile is satisfied exactly when its status is not-applicable or
confirmed. -/
theorem getTileBumpInfo_satisfied (p : releasesDataProvider) (tileName releaseName : String)
    (firstReleaseV : semver.Version) (released : Bool) (calls : List Call) :
    (getTileBumpInfo p tileName releaseName firstReleaseV released calls).1.2
      = (statusNotApplicable
          (getTileBumpInfo p tileName releaseName firstReleaseV released calls).1.1
        || statusConfirmed
          (getTileBumpInfo p tileName releaseName firstReleaseV released calls).1.1) := by
  rcases getTileBumpInfo_cases p tileName releaseName firstReleaseV released calls with
    h | h | h | ⟨v, h⟩ | ⟨v, h⟩
  · rw [h]; decide
  · rw [h]; decide
  · rw [h]; decide
  · rw [h]; simp [statusConfirmed_no, statusNotApplicable_no]
  · rw [h]; simp [statusConfirmed_yes]

theorem isTargetReleased_iff (tv : Option semver.Version) (fg : semver.Version) :
    isTargetReleased tv fg = true ↔ ∃ t, tv = some t ∧ t.GreaterThan fg = false := by
  cases tv with
  | none => simp [isTargetReleased]
  | some t => simp [isTargetReleased]

theorem fetchRelease_allBumped_iff (p : releasesDataProvider) (tv : Option semver.Version)
    (r : config.Release) (c : List Call) :
    (fetchRelease p tv r c).1.AllBumped = true ↔
      r.OnlyDevelop = true ∨
        (TargetReleased p tv r c ∧
          (statusNotApplicable (fetchRelease p tv r c).1.BumpedInTas
            || statusConfirmed (fetchRelease p tv r c).1.BumpedInTas) = true ∧
          (statusNotApplicable (fetchRelease p tv r c).1.BumpedInTasw
            || statusConfirmed (fetchRelease p tv r c).1.BumpedInTasw) = true ∧
          (statusNotApplicable (fetchRelease p tv r c).1.BumpedInIst
            || statusConfirmed (fetchRelease p tv r c).1.BumpedInIst) = true) := by
  simp only [TargetReleased, releasedAnswer, firstAnswer, fetchRelease, evaluateRelease]
  generalize p.githubVersion.GetReleasedVersion (c ++ [Call.GetDevelopVersion r]) r = rel
  generalize p.githubVersion.GetFirstReleasedVersion
    (c ++ [Call.GetDevelopVersion r] ++ [Call.GetReleasedVersion r]) r rel.1 = first
  by_cases hd : r.OnlyDevelop = true
  · simp [hd]
  · simp only [hd, if_false, false_or, Bool.false_eq_true]
    obtain ⟨relV, relE⟩ := rel
    obtain ⟨firstV, firstE⟩ := first
    cases relE with
    | some e => simp
    | none =>
      cases firstE with
      | some e => simp
      | none =>
        simp only [true_and, bumpedInTiles]
        cases hfr : semver.NewVersion firstV.ReleaseVersion with
        | none => simp
        | some fr =>
          cases hfg : semver.NewVersion firstV.GolangVersion with
          | none => simp
          | some fg =>
            simp only [Option.some.injEq, exists_and_left, exists_eq_left', Bool.and_eq_true,
              getTileBumpInfo_satisfied, isTargetReleased_iff]
            tauto

/-- C2: for the row of every configured release in a fetch pass, `AllBumped`
is true exactly when the release is develop-only, or the target is confirmed
released in the release and each of the three tile statuses is not-applicable
or confirmed. -/
theorem fetch_allBumped_iff (p : releasesDataProvider) (target : String) (calls : List Call)
    (i : Nat) (r : config.Release) (h : p.config.Releases[i]? = some r) :
    ∃ row, (fetch p target calls).1.Releases[i]? = some row ∧
      (row.AllBumped = true ↔
        r.OnlyDevelop = true ∨
          (TargetReleased p (semver.NewVersion target) r (callsAt p target calls i) ∧
            (statusNotApplicable row.BumpedInTas || statusConfirmed row.BumpedInTas) = true ∧
            (statusNotApplicable row.BumpedInTasw || statusConfirmed row.BumpedInTasw) = true ∧
            (statusNotApplicable row.BumpedInIst || statusConfirmed row.BumpedInIst) = true)) :=
  ⟨_, fetch_row p target calls i r h, fetchRelease_allBumped_iff p _ r _⟩

/-- The characterisation of `AllBumped` at the first release of the sample
configuration, with all tiles ahead. -/
theorem fetch_allBumped_iff_witness :
    ∃ row, (fetch sample.providerAhead "1.21.0" []).1.Releases[0]? = some row ∧
      (row.AllBumped = true ↔
        sample.routing.OnlyDevelop = true ∨
          (TargetReleased sample.providerAhead (semver.NewVersion "1.21.0") sample.routing
              (callsAt sample.providerAhead "1.21.0" [] 0) ∧
            (statusNotApplicable row.BumpedInTas || statusConfirmed row.BumpedInTas) = true ∧
            (statusNotApplicable row.BumpedInTasw || statusConfirmed row.BumpedInTasw) = true ∧
            (statusNotApplicable row.BumpedInIst || statusConfirmed row.BumpedInIst) = true)) :=
  fetch_allBumped_iff sample.providerAhead "1.21.0" [] 0 sample.routing (by decide)

theorem fetchRelease_onlyDevelop (p : releasesDataProvider) (tv : Option semver.Version)
    (r : config.Release) (c : List Call) (hd : r.OnlyDevelop = true) :
    (fetchRelease p tv r c).1.BumpedInTas = "n/a" ∧ (fetchRelease p tv r c).1.BumpedInTasw = "n/a" ∧
      (fetchRelease p tv r c).1.BumpedInIst = "n/a" ∧ (fetchRelease p tv r c).1.AllBumped = true := by
  simp [fetchRelease, evaluateRelease, hd]

/-- C3: the row of a develop-only release has the three statuses `n/a` and
`AllBumped` true, for every target and every behaviour of the collaborators. -/
theorem fetch_onlyDevelop (p : releasesDataProvider) (target : String) (calls : List Call)
    (i : Nat) (r : config.Release) (h : p.config.Releases[i]? = some r)
    (hd : r.OnlyDevelop = true) :
    ∃ row, (fetch p target calls).1.Releases[i]? = some row ∧
      row.BumpedInTas = "n/a" ∧ row.BumpedInTasw = "n/a" ∧ row.BumpedInIst = "n/a" ∧
      row.AllBumped = true :=
  ⟨_, fetch_row p target calls i r h, fetchRelease_onlyDevelop p _ r _ hd⟩

/-- The develop-only release of the sample configuration, with the source
fetcher down and a target that does not parse. -/
theorem fetch_onlyDevelop_witness :
    ∃ row, (fetch sample.providerDown "not a version" []).1.Releases[1]? = some row ∧
      row.BumpedInTas = "n/a" ∧ row.BumpedInTasw = "n/a" ∧ row.BumpedInIst = "n/a" ∧
      row.AllBumped = true :=
  fetch_onlyDevelop sample.providerDown "not a version" [] 1 sample.healthcheck (by decide)
    (by decide)

theorem fetchLoop_names (p : releasesDataProvider) (tv : Option semver.Version) :
    ∀ (rs : List config.Release) (calls : List Call),
      (fetchLoop p tv rs [] calls).1.map (fun row => (row.Name, row.URL))
        = rs.map (fun r => (r.Name, r.URL))
  | [], calls => by simp [fetchLoop]
  | r :: rs, calls => by
    rw [fetchLoop_cons]
    simp [fetchLoop_names p tv rs, fetchRelease]

/-- C6: the snapshot of a fetch pass has as many rows as there are configured
releases, and the rows carry the names and URLs of the configured releases in
the configured order, for every behaviour of the collaborators. -/
theorem fetch_rows_match_config (p : releasesDataProvider) (target : String)
    (calls : List Call) :
    (fetch p target calls).1.Releases.length = p.config.Releases.length ∧
    (fetch p target calls).1.Releases.map (fun row => (row.Name, row.URL))
      = p.config.Releases.map (fun r => (r.Name, r.URL)) ∧
    ∀ (i : Nat) (r : config.Release), p.config.Releases[i]? = some r →
      ∃ row, (fetch p target calls).1.Releases[i]? = some row ∧
        row.Name = r.Name ∧ row.URL = r.URL :=
  ⟨fetchLoop_length p _ _ _, fetchLoop_names p _ _ _, fun i r h =>
    ⟨_, fetch_row p target calls i r h, rfl, rfl⟩⟩

/-- The calls of `getTileBumpInfo` do not depend on the answers. -/
theorem getTileBumpInfo_calls (p : releasesDataProvider) (tileName releaseName : String)
    (firstReleaseV : semver.Version) (released : Bool) (calls : List Call) :
    (getTileBumpInfo p tileName releaseName firstReleaseV released calls).2
      = tileCalls tileName releaseName released calls := by
  unfold getTileBumpInfo tileCalls tileLookup
  split_ifs <;> simp <;> (repeat' split) <;> rfl

/-- With the target not released no tile is looked up. -/
theorem getTileBumpInfo_not_released (p : releasesDataProvider) (tileName releaseName : String)
    (firstReleaseV : semver.Version) (calls : List Call) :
    getTileBumpInfo p tileName releaseName firstReleaseV false calls
      = ((statusNotReleased releaseName, decide (releaseName = "")), calls) := by
  unfold getTileBumpInfo statusNotReleased
  by_cases h : releaseName = ""
  · simp [h]
  · simp [h]

theorem bumpedInTiles_calls_tiles (p : releasesDataProvider) (q : tasVersionProvider)
    (r : config.Release) (info : version.VersionInfo) (tv : Option semver.Version)
    (calls : List Call) :
    (bumpedInTiles { p with tasVersion := q } r info tv calls).2
      = (bumpedInTiles p r info tv calls).2 := by
  unfold bumpedInTiles
  cases semver.NewVersion info.ReleaseVersion with
  | none => rfl
  | some fr =>
    cases semver.NewVersion info.GolangVersion with
    | none => rfl
    | some fg => simp only [getTileBumpInfo_calls]

theorem fetchRelease_calls_tiles (p : releasesDataProvider) (q : tasVersionProvider)
    (tv : Option semver.Version) (r : config.Release) (c : List Call) :
    (fetchRelease { p with tasVersion := q } tv r c).2 = (fetchRelease p tv r c).2 := by
  simp only [fetchRelease, evaluateRelease]
  generalize p.githubVersion.GetReleasedVersion (c ++ [Call.GetDevelopVersion r]) r = rel
  generalize p.githubVersion.GetFirstReleasedVersion
    (c ++ [Call.GetDevelopVersion r] ++ [Call.GetReleasedVersion r]) r rel.1 = first
  obtain ⟨relV, relE⟩ := rel
  obtain ⟨firstV, firstE⟩ := first
  by_cases hd : r.OnlyDevelop = true
  · simp [hd]
  · cases relE with
    | some e => simp [hd]
    | none =>
      cases firstE with
      | some e => simp [hd]
      | none => simp [hd, bumpedInTiles_calls_tiles]

theorem fetchLoop_calls_tiles (p : releasesDataProvider) (q : tasVersionProvider)
    (tv : Option semver.Version) :
    ∀ (rs : List config.Release) (c : List Call),
      (fetchLoop { p with tasVersion := q } tv rs [] c).2 = (fetchLoop p tv rs [] c).2
  | [], c => by simp [fetchLoop]
  | r :: rs, c => by
    rw [fetchLoop_cons, fetchLoop_cons]
    simp only [fetchRelease_calls_tiles]
    exact fetchLoop_calls_tiles p q tv rs _

/-- The calls made before release `i` do not depend on the tile fetcher. -/
theorem callsAt_tiles (p : releasesDataProvider) (q : tasVersionProvider) (target : String)
    (calls : List Call) (i : Nat) :
    callsAt { p with tasVersion := q } target calls i = callsAt p target calls i := by
  unfold callsAt
  exact fetchLoop_calls_tiles p q _ _ _

/-- The row and the calls of a release whose target is not released. -/
theorem fetchRelease_not_released (p : releasesDataProvider) (tv : Option semver.Version)
    (r : config.Release) (c : List Call) (fr fg : semver.Version)
    (hd : r.OnlyDevelop = false)
    (hrel : (releasedAnswer p r c).2 = none) (hfirst : (firstAnswer p r c).2 = none)
    (hfr : semver.NewVersion (firstAnswer p r c).1.ReleaseVersion = some fr)
    (hfg : semver.NewVersion (firstAnswer p r c).1.GolangVersion = some fg)
    (hnot : isTargetReleased tv fg = false) :
    fetchRelease p tv r c =
      ({ Name := r.Name, URL := r.URL, CIURL := p.config.CIURL r,
         CIBadgeURL := "/images/concourse-icon.png",
         VersionOnDev := (p.githubVersion.GetDevelopVersion c r).1,
         ReleasedVersion := (releasedAnswer p r c).1,
         FirstReleasedGolangVersion := (firstAnswer p r c).1.GolangVersion,
         FirstReleasedReleaseVersion := (firstAnswer p r c).1.ReleaseVersion,
         BumpedInTas := statusNotReleased r.TasReleaseName,
         BumpedInTasw := statusNotReleased r.TaswReleaseName,
         BumpedInIst := statusNotReleased r.IstReleaseName,
         AllBumped := false }, callsAtTiles p r c) := by
  simp only [releasedAnswer, firstAnswer] at hrel hfirst hfr hfg
  simp only [fetchRelease, evaluateRelease, releasedAnswer, firstAnswer, callsAtTiles, hd,
    hrel, hfirst, bumpedInTiles, hfr, hfg, hnot, getTileBumpInfo_not_released]
  simp

/-- The row of release `i` under any tile fetcher, when the target is not
released in it. -/
theorem fetch_row_not_released (p : releasesDataProvider) (target : String)
    (calls : List Call) (i : Nat) (r : config.Release) (fr fg : semver.Version)
    (h : p.config.Releases[i]? = some r) (hd : r.OnlyDevelop = false)
    (hrel : (releasedAnswer p r (callsAt p target calls i)).2 = none)
    (hfirst : (firstAnswer p r (callsAt p target calls i)).2 = none)
    (hfr : semver.NewVersion (firstAnswer p r (callsAt p target calls i)).1.ReleaseVersion
      = some fr)
    (hfg : semver.NewVersion (firstAnswer p r (callsAt p target calls i)).1.GolangVersion
      = some fg)
    (hnot : isTargetReleased (semver.NewVersion target) fg = false)
    (q : tasVersionProvider) :
    (fetch { p with tasVersion := q } target calls).1.Releases[i]?
        = some (fetchRelease p (semver.NewVersion target) r (callsAt p target calls i)).1 ∧
      (fetchRelease { p with tasVersion := q } (semver.NewVersion target) r
          (callsAt p target calls i)).2
        = callsAtTiles p r (callsAt p target calls i) := by
  have hq := fetchRelease_not_released { p with tasVersion := q } (semver.NewVersion target) r
    (callsAt p target calls i) fr fg hd hrel hfirst hfr hfg hnot
  have hp := fetchRelease_not_released p (semver.NewVersion target) r
    (callsAt p target calls i) fr fg hd hrel hfirst hfr hfg hnot
  constructor
  · rw [fetch_row { p with tasVersion := q } target calls i r h, callsAt_tiles, hq, hp]
    rfl
  · rw [hq]
    rfl

/-- C4: for a release that is not develop-only, whose released version and
first-carrying pair were fetched and parse, and whose target parses strictly
greater than the first-carrying toolchain version: the target is not released,
a tile with a component name has status `no`, a tile without one `n/a`,
`AllBumped` is false, and the row is the same for every tile fetcher, none of
whose lookups is called for the release. -/
theorem fetch_target_newer (p : releasesDataProvider) (target : String) (calls : List Call)
    (i : Nat) (r : config.Release) (firstReleaseV firstGolangVersion targetV : semver.Version)
    (h : p.config.Releases[i]? = some r) (hd : r.OnlyDevelop = false)
    (hrel : (releasedAnswer p r (callsAt p target calls i)).2 = none)
    (hfirst : (firstAnswer p r (callsAt p target calls i)).2 = none)
    (hfr : semver.NewVersion (firstAnswer p r (callsAt p target calls i)).1.ReleaseVersion
      = some firstReleaseV)
    (hfg : semver.NewVersion (firstAnswer p r (callsAt p target calls i)).1.GolangVersion
      = some firstGolangVersion)
    (ht : semver.NewVersion target = some targetV)
    (hgt : targetV.GreaterThan firstGolangVersion = true) :
    isTargetReleased (some targetV) firstGolangVersion = false ∧
    ∃ row,
      (∀ q : tasVersionProvider,
        (fetch { p with tasVersion := q } target calls).1.Releases[i]? = some row ∧
        (fetchRelease { p with tasVersion := q } (semver.NewVersion target) r
            (callsAt p target calls i)).2
          = callsAt p target calls i ++ [Call.GetDevelopVersion r]
              ++ [Call.GetReleasedVersion r]
              ++ [Call.GetFirstReleasedVersion r
                    (releasedAnswer p r (callsAt p target calls i)).1]) ∧
      row.BumpedInTas = (if r.TasReleaseName = "" then "n/a" else "no") ∧
      row.BumpedInTasw = (if r.TaswReleaseName = "" then "n/a" else "no") ∧
      row.BumpedInIst = (if r.IstReleaseName = "" then "n/a" else "no") ∧
      row.AllBumped = false := by
  have hnot : isTargetReleased (semver.NewVersion target) firstGolangVersion = false := by
    simp [ht, isTargetReleased, hgt]
  refine ⟨by simp [isTargetReleased, hgt], _, fun q =>
    fetch_row_not_released p target calls i r _ _ h hd hrel hfirst hfr hfg hnot q, ?_⟩
  rw [fetchRelease_not_released p _ r _ _ _ hd hrel hfirst hfr hfg hnot]
  exact ⟨rfl, rfl, rfl, rfl⟩

/-- Target 1.22.0 against the first-carrying 1.21.0 in the sample
configuration. -/
theorem fetch_target_newer_witness :
    isTargetReleased (some ⟨1, 22, 0, "", "", "1.22.0"⟩) ⟨1, 21, 0, "", "", "1.21.0"⟩ = false ∧
    ∃ row,
      (∀ q : tasVersionProvider,
        (fetch { sample.provider with tasVersion := q } "1.22.0" []).1.Releases[0]? = some row ∧
        (fetchRelease { sample.provider with tasVersion := q } (semver.NewVersion "1.22.0")
            sample.routing (callsAt sample.provider "1.22.0" [] 0)).2
          = callsAt sample.provider "1.22.0" [] 0 ++ [Call.GetDevelopVersion sample.routing]
              ++ [Call.GetReleasedVersion sample.routing]
              ++ [Call.GetFirstReleasedVersion sample.routing
                    (releasedAnswer sample.provider sample.routing
                      (callsAt sample.provider "1.22.0" [] 0)).1]) ∧
      row.BumpedInTas = (if sample.routing.TasReleaseName = "" then "n/a" else "no") ∧
      row.BumpedInTasw = (if sample.routing.TaswReleaseName = "" then "n/a" else "no") ∧
      row.BumpedInIst = (if sample.routing.IstReleaseName = "" then "n/a" else "no") ∧
      row.AllBumped = false :=
  fetch_target_newer sample.provider "1.22.0" [] 0 sample.routing
    ⟨2, 3, 0, "", "", "v2.3.0"⟩ ⟨1, 21, 0, "", "", "1.21.0"⟩ ⟨1, 22, 0, "", "", "1.22.0"⟩
    (by decide) (by decide) (by decide) (by decide) (by decide) (by decide) (by decide)
    (by decide)

/-- The statuses and `AllBumped` of a release whose fetches succeeded and whose
pair parses, in terms of the three tile evaluations. -/
theorem fetchRelease_tiles (p : releasesDataProvider) (tv : Option semver.Version)
    (r : config.Release) (c : List Call) (fr fg : semver.Version)
    (hd : r.OnlyDevelop = false)
    (hrel : (releasedAnswer p r c).2 = none) (hfirst : (firstAnswer p r c).2 = none)
    (hfr : semver.NewVersion (firstAnswer p r c).1.ReleaseVersion = some fr)
    (hfg : semver.NewVersion (firstAnswer p r c).1.GolangVersion = some fg) :
    (fetchRelease p tv r c).1.BumpedInTas
        = (getTileBumpInfo p "TAS" r.TasReleaseName fr (isTargetReleased tv fg)
            (callsAtTiles p r c)).1.1 ∧
      (fetchRelease p tv r c).1.BumpedInTasw
        = (getTileBumpInfo p "TASW" r.TaswReleaseName fr (isTargetReleased tv fg)
            (tileCalls "TAS" r.TasReleaseName (isTargetReleased tv fg)
              (callsAtTiles p r c))).1.1 ∧
      (fetchRelease p tv r c).1.BumpedInIst
        = (getTileBumpInfo p "IST" r.IstReleaseName fr (isTargetReleased tv fg)
            (tileCalls "TASW" r.TaswReleaseName (isTargetReleased tv fg)
              (tileCalls "TAS" r.TasReleaseName (isTargetReleased tv fg)
                (callsAtTiles p r c)))).1.1 ∧
      (fetchRelease p tv r c).1.AllBumped
        = (isTargetReleased tv fg
          && (getTileBumpInfo p "TAS" r.TasReleaseName fr (isTargetReleased tv fg)
            (callsAtTiles p r c)).1.2
          && (getTileBumpInfo p "TASW" r.TaswReleaseName fr (isTargetReleased tv fg)
            (tileCalls "TAS" r.TasReleaseName (isTargetReleased tv fg)
              (callsAtTiles p r c))).1.2
          && (getTileBumpInfo p "IST" r.IstReleaseName fr (isTargetReleased tv fg)
            (tileCalls "TASW" r.TaswReleaseName (isTargetReleased tv fg)
              (tileCalls "TAS" r.TasReleaseName (isTargetReleased tv fg)
                (callsAtTiles p r c)))).1.2) := by
  simp only [releasedAnswer, firstAnswer] at hrel hfirst hfr hfg
  simp only [fetchRelease, evaluateRelease, releasedAnswer, firstAnswer, callsAtTiles, hd,
    hrel, hfirst, bumpedInTiles, hfr, hfg, getTileBumpInfo_calls]
  simp

/-- A tile found at or above the required version is satisfied. -/
theorem getTileBumpInfo_atLeast (p : releasesDataProvider) (tileName releaseName : String)
    (fr : semver.Version) (calls : List Call) (hfr : fr.Valid)
    (h : TileAtLeast p tileName releaseName fr calls) :
    (getTileBumpInfo p tileName releaseName fr true calls).1.2 = true := by
  by_cases hn : releaseName = ""
  · simp [getTileBumpInfo, hn]
  · obtain ⟨answer, calls1, tileV, hfound, hparse, hge⟩ := h hn
    rw [getTileBumpInfo_found p tileName releaseName answer fr tileV calls calls1 hn hfr hfound
      hparse, hge]
    simp

/-- With a component name and the target released, the status is never the
bare `no`. -/
theorem getTileBumpInfo_released_ne_no (p : releasesDataProvider)
    (tileName releaseName : String) (fr : semver.Version) (calls : List Call)
    (hName : releaseName ≠ "") :
    (getTileBumpInfo p tileName releaseName fr true calls).1.1 ≠ "no" := by
  have hno : ∀ x : String, "no (" ++ x ++ ")" ≠ "no" := by
    intro x hx
    have := congrArg String.data hx
    rw [no_data] at this
    have e : "no".data = ['n', 'o'] := rfl
    rw [e] at this
    simp at this
  have hyes : ∀ x : String, "yes (" ++ x ++ ")" ≠ "no" := by
    intro x hx
    have := congrArg String.data hx
    rw [yes_data] at this
    have e : "no".data = ['n', 'o'] := rfl
    rw [e] at this
    simp at this
  unfold getTileBumpInfo
  simp only [hName, if_false, Bool.not_true]
  cases hl : tileLookup p tileName releaseName calls with
  | none => simp
  | some l =>
    cases hf : l.1.2 with
    | false => simp [hf]
    | true =>
      cases hp : semver.NewVersion l.1.1 with
      | none => simp [hf, hp]
      | some v =>
        by_cases hg : fr.GreaterThan v = true
        · simp [hf, hp, hg, hno]
        · simp [hf, hp, hg, hyes]

/-- C5: for a release that is not develop-only, whose released version and
first-carrying pair were fetched and parse, and whose target parses: the target
is treated as released exactly when it is not greater than the first-carrying
toolchain version, and the row shows it: a tile with a component name has the
status `no` exactly when the target is greater, `AllBumped` is true only when
the target is not greater, a greater target gives the not-released row, and a
target that is not greater gives the statuses of the tile evaluations with
`AllBumped` true exactly when every status is not-applicable or confirmed; so
when the target is equal to or older than the first-carrying toolchain version
and every tile with a configured component is found at or above the
first-carrying release version, `AllBumped` is true. -/
theorem fetch_target_released (p : releasesDataProvider) (target : String) (calls : List Call)
    (i : Nat) (r : config.Release) (firstReleaseV firstGolangVersion targetV : semver.Version)
    (h : p.config.Releases[i]? = some r) (hd : r.OnlyDevelop = false)
    (hrel : (releasedAnswer p r (callsAt p target calls i)).2 = none)
    (hfirst : (firstAnswer p r (callsAt p target calls i)).2 = none)
    (hfr : semver.NewVersion (firstAnswer p r (callsAt p target calls i)).1.ReleaseVersion
      = some firstReleaseV)
    (hfg : semver.NewVersion (firstAnswer p r (callsAt p target calls i)).1.GolangVersion
      = some firstGolangVersion)
    (ht : semver.NewVersion target = some targetV) :
    (isTargetReleased (some targetV) firstGolangVersion = true
      ↔ targetV.GreaterThan firstGolangVersion = false) ∧
    (TargetReleased p (semver.NewVersion target) r (callsAt p target calls i)
      ↔ targetV.GreaterThan firstGolangVersion = false) ∧
    (targetV.Compare firstGolangVersion ≤ 0 →
      TileAtLeast p "TAS" r.TasReleaseName firstReleaseV
        (callsAtTiles p r (callsAt p target calls i)) →
      TileAtLeast p "TASW" r.TaswReleaseName firstReleaseV
        (tileCalls "TAS" r.TasReleaseName true (callsAtTiles p r (callsAt p target calls i))) →
      TileAtLeast p "IST" r.IstReleaseName firstReleaseV
        (tileCalls "TASW" r.TaswReleaseName true
          (tileCalls "TAS" r.TasReleaseName true
            (callsAtTiles p r (callsAt p target calls i)))) →
      ∃ row, (fetch p target calls).1.Releases[i]? = some row ∧ row.AllBumped = true) ∧
    ∃ row, (fetch p target calls).1.Releases[i]? = some row ∧
      (r.TasReleaseName ≠ "" →
        (row.BumpedInTas = "no" ↔ targetV.GreaterThan firstGolangVersion = true)) ∧
      (r.TaswReleaseName ≠ "" →
        (row.BumpedInTasw = "no" ↔ targetV.GreaterThan firstGolangVersion = true)) ∧
      (r.IstReleaseName ≠ "" →
        (row.BumpedInIst = "no" ↔ targetV.GreaterThan firstGolangVersion = true)) ∧
      (row.AllBumped = true → targetV.GreaterThan firstGolangVersion = false) ∧
      (targetV.GreaterThan firstGolangVersion = true →
        row.BumpedInTas = (if r.TasReleaseName = "" then "n/a" else "no") ∧
        row.BumpedInTasw = (if r.TaswReleaseName = "" then "n/a" else "no") ∧
        row.BumpedInIst = (if r.IstReleaseName = "" then "n/a" else "no") ∧
        row.AllBumped = false) ∧
      (targetV.GreaterThan firstGolangVersion = false →
        row.BumpedInTas
          = (getTileBumpInfo p "TAS" r.TasReleaseName firstReleaseV true
              (callsAtTiles p r (callsAt p target calls i))).1.1 ∧
        row.BumpedInTasw
          = (getTileBumpInfo p "TASW" r.TaswReleaseName firstReleaseV true
              (tileCalls "TAS" r.TasReleaseName true
                (callsAtTiles p r (callsAt p target calls i)))).1.1 ∧
        row.BumpedInIst
          = (getTileBumpInfo p "IST" r.IstReleaseName firstReleaseV true
              (tileCalls "TASW" r.TaswReleaseName true
                (tileCalls "TAS" r.TasReleaseName true
                  (callsAtTiles p r (callsAt p target calls i))))).1.1 ∧
        (row.AllBumped = true ↔
          (statusNotApplicable row.BumpedInTas || statusConfirmed row.BumpedInTas) = true ∧
          (statusNotApplicable row.BumpedInTasw || statusConfirmed row.BumpedInTasw) = true ∧
          (statusNotApplicable row.BumpedInIst || statusConfirmed row.BumpedInIst) = true)) := by
  have hflag : isTargetReleased (semver.NewVersion target) firstGolangVersion
      = !targetV.GreaterThan firstGolangVersion := by
    simp [ht, isTargetReleased]
  obtain ⟨t1, t2, t3, t4⟩ := fetchRelease_tiles p (semver.NewVersion target) r
    (callsAt p target calls i) _ _ hd hrel hfirst hfr hfg
  rw [hflag] at t1 t2 t3 t4
  have hTR : TargetReleased p (semver.NewVersion target) r (callsAt p target calls i)
      ↔ targetV.GreaterThan firstGolangVersion = false := by
    unfold TargetReleased
    rw [hfr, hfg, ht]
    simp [hrel, hfirst]
  refine ⟨by simp [isTargetReleased], hTR, ?_, ?_⟩
  · intro hle h1 h2 h3
    have hnot : targetV.GreaterThan firstGolangVersion = false := by
      simp only [semver.Version.GreaterThan, decide_eq_false_iff_not]
      omega
    have hv := semver.NewVersion_valid hfr
    refine ⟨_, fetch_row p target calls i r h, ?_⟩
    rw [t4, hnot, Bool.not_false,
      getTileBumpInfo_atLeast p _ _ _ _ hv h1, getTileBumpInfo_atLeast p _ _ _ _ hv h2,
      getTileBumpInfo_atLeast p _ _ _ _ hv h3]
    rfl
  · refine ⟨_, fetch_row p target calls i r h, ?_⟩
    rw [t1, t2, t3, t4]
    cases hg : targetV.GreaterThan firstGolangVersion with
    | true =>
      simp only [Bool.not_true, getTileBumpInfo_not_released, statusNotReleased, tileCalls]
      refine ⟨?_, ?_, ?_, ?_, ?_, ?_⟩
      · intro hn; simp [hn]
      · intro hn; simp [hn]
      · intro hn; simp [hn]
      · intro hall; simp at hall
      · intro _; simp
      · intro hc; cases hc
    | false =>
      simp only [Bool.not_false]
      refine ⟨?_, ?_, ?_, ?_, ?_, ?_⟩
      · intro hn
        simp [getTileBumpInfo_released_ne_no p "TAS" _ firstReleaseV _ hn]
      · intro hn
        simp [getTileBumpInfo_released_ne_no p "TASW" _ firstReleaseV _ hn]
      · intro hn
        simp [getTileBumpInfo_released_ne_no p "IST" _ firstReleaseV _ hn]
      · intro _; trivial
      · intro hc; cases hc
      · intro _
        refine ⟨trivial, trivial, trivial, ?_⟩
        simp only [Bool.true_and, Bool.and_eq_true, getTileBumpInfo_satisfied]
        tauto

/-- Target 1.20.0 against the first-carrying 1.21.0, all tiles at v2.5.0 and
the required release version v2.3.0. -/
theorem fetch_target_released_witness :
    ∃ row, (fetch sample.providerAhead "1.20.0" []).1.Releases[0]? = some row ∧
      row.AllBumped = true :=
  (fetch_target_released sample.providerAhead "1.20.0" [] 0 sample.routing
    ⟨2, 3, 0, "", "", "v2.3.0"⟩ ⟨1, 21, 0, "", "", "1.21.0"⟩ ⟨1, 20, 0, "", "", "1.20.0"⟩
    (by decide) (by decide) (by decide) (by decide) (by decide) (by decide) (by decide)).2.2.1
    (by decide)
    (fun _ => ⟨"v2.5.0", _, ⟨2, 5, 0, "", "", "v2.5.0"⟩, rfl, by decide, by decide⟩)
    (fun hne => absurd rfl hne)
    (fun _ => ⟨"v2.5.0", _, ⟨2, 5, 0, "", "", "v2.5.0"⟩, rfl, by decide, by decide⟩)

theorem NoRefreshSince.refl (c : List Call) : NoRefreshSince c c :=
  ⟨[], by simp, by simp⟩

theorem NoRefreshSince.trans {a b c : List Call} (h1 : NoRefreshSince a b)
    (h2 : NoRefreshSince b c) : NoRefreshSince a c := by
  obtain ⟨r1, e1, n1⟩ := h1
  obtain ⟨r2, e2, n2⟩ := h2
  refine ⟨r1 ++ r2, by rw [e2, e1, List.append_assoc], ?_⟩
  intro x hx
  rcases List.mem_append.mp hx with hx | hx
  · exact n1 x hx
  · exact n2 x hx

theorem NoRefreshSince.step (c : List Call) (x : Call) (hx : Call.isRefresh x = false) :
    NoRefreshSince c (c ++ [x]) :=
  ⟨[x], rfl, by simpa using hx⟩

theorem tileCalls_noRefresh (tileName releaseName : String) (released : Bool)
    (c : List Call) : NoRefreshSince c (tileCalls tileName releaseName released c) := by
  unfold tileCalls
  split_ifs
  all_goals first
    | exact NoRefreshSince.refl c
    | exact NoRefreshSince.step c _ rfl

theorem bumpedInTiles_noRefresh (p : releasesDataProvider) (r : config.Release)
    (info : version.VersionInfo) (tv : Option semver.Version) (c : List Call) :
    NoRefreshSince c (bumpedInTiles p r info tv c).2 := by
  unfold bumpedInTiles
  cases semver.NewVersion info.ReleaseVersion with
  | none => exact NoRefreshSince.refl c
  | some fr =>
    cases semver.NewVersion info.GolangVersion with
    | none => exact NoRefreshSince.refl c
    | some fg =>
      simp only [getTileBumpInfo_calls]
      exact ((tileCalls_noRefresh _ _ _ _).trans (tileCalls_noRefresh _ _ _ _)).trans
        (tileCalls_noRefresh _ _ _ _)

theorem fetchRelease_noRefresh (p : releasesDataProvider) (tv : Option semver.Version)
    (r : config.Release) (c : List Call) : NoRefreshSince c (fetchRelease p tv r c).2 := by
  have hdev := NoRefreshSince.step c (Call.GetDevelopVersion r) rfl
  have hrel := NoRefreshSince.step (c ++ [Call.GetDevelopVersion r]) (Call.GetReleasedVersion r) rfl
  simp only [fetchRelease, evaluateRelease]
  generalize p.githubVersion.GetReleasedVersion (c ++ [Call.GetDevelopVersion r]) r = rel
    at hrel ⊢
  have hfirst := NoRefreshSince.step
    (c ++ [Call.GetDevelopVersion r] ++ [Call.GetReleasedVersion r])
    (Call.GetFirstReleasedVersion r rel.1) rfl
  generalize p.githubVersion.GetFirstReleasedVersion
    (c ++ [Call.GetDevelopVersion r] ++ [Call.GetReleasedVersion r]) r rel.1 = first
  obtain ⟨relV, relE⟩ := rel
  obtain ⟨firstV, firstE⟩ := first
  by_cases hd : r.OnlyDevelop = true
  · simpa [hd] using hdev
  · cases relE with
    | some e => simpa [hd] using hdev.trans hrel
    | none =>
      cases firstE with
      | some e => simpa [hd] using (hdev.trans hrel).trans hfirst
      | none =>
        simp only [hd, Bool.false_eq_true, if_false]
        exact ((hdev.trans hrel).trans hfirst).trans (bumpedInTiles_noRefresh p r _ tv _)

theorem fetchLoop_noRefresh (p : releasesDataProvider) (tv : Option semver.Version) :
    ∀ (rs : List config.Release) (c : List Call),
      NoRefreshSince c (fetchLoop p tv rs [] c).2
  | [], c => by simpa [fetchLoop] using NoRefreshSince.refl c
  | r :: rs, c => by
    rw [fetchLoop_cons]
    exact (fetchRelease_noRefresh p tv r c).trans (fetchLoop_noRefresh p tv rs _)

/-- A fetch pass reads neither the stored snapshot nor its timestamp. -/
theorem fetchLoop_stamp (p : releasesDataProvider) (t : Int) (tv : Option semver.Version) :
    ∀ (rs : List config.Release) (rows : List Release) (c : List Call),
      fetchLoop { p with lastFetchTime := t } tv rs rows c = fetchLoop p tv rs rows c
  | [], rows, c => by simp [fetchLoop]
  | r :: rs, rows, c => by
    simp only [fetchLoop]
    exact fetchLoop_stamp p t tv rs _ _

theorem fetch_stamp (p : releasesDataProvider) (t : Int) (target : String) (c : List Call) :
    fetch { p with lastFetchTime := t } target c = fetch p target c := by
  simp only [fetch, fetchLoop_stamp]

/-- C7: a provider that holds a snapshot whose age does not exceed the refresh
interval returns the stored snapshot for every requested target, makes no call
to the collaborators, and keeps its snapshot and timestamp. -/
theorem Get_fresh (p : releasesDataProvider) (FETCH_INTERVAL nowTest nowStamp : Int)
    (targetGoVersion : String) (calls : List Call)
    (hsnapshot : p.lastFetchTime ≠ 0)
    (hfresh : nowTest - p.lastFetchTime ≤ FETCH_INTERVAL) :
    Get p FETCH_INTERVAL nowTest nowStamp targetGoVersion calls = (p.cachedData, p, calls) := by
  unfold Get
  have h : ¬ (p.lastFetchTime = 0 ∨ p.lastFetchTime + FETCH_INTERVAL < nowTest) := by
    intro hc
    rcases hc with hc | hc
    · exact hsnapshot hc
    · omega
  simp [h]

/-- A snapshot built for 1.21.0 at time 1000 is served at time 1600 to a
request for 1.22.0, with an interval of 600. -/
theorem Get_fresh_witness :
    Get sample.providerCached 600 1600 1601 "1.22.0" []
        = (sample.providerCached.cachedData, sample.providerCached, []) ∧
      sample.providerCached.cachedData.GolangVersion = "1.21.0" :=
  ⟨Get_fresh sample.providerCached 600 1600 1601 "1.22.0" [] (by decide) (by decide), rfl⟩

/-- C8: a provider without a snapshot, or whose snapshot is older than the
refresh interval, runs one fetch pass for the requested target, stores its
result with the current time, and returns it; the pass refreshes the tile
fetcher once, with `main`, before every other call of the pass, whatever the
refresh answers. -/
theorem Get_stale (p : releasesDataProvider) (FETCH_INTERVAL nowTest nowStamp : Int)
    (targetGoVersion : String) (calls : List Call)
    (hstale : p.lastFetchTime = 0 ∨ nowTest - p.lastFetchTime > FETCH_INTERVAL) :
    (Get p FETCH_INTERVAL nowTest nowStamp targetGoVersion calls).1
        = (fetch p targetGoVersion calls).1 ∧
      (Get p FETCH_INTERVAL nowTest nowStamp targetGoVersion calls).2.1
        = { p with lastFetchTime := nowStamp, cachedData := (fetch p targetGoVersion calls).1 } ∧
      (Get p FETCH_INTERVAL nowTest nowStamp targetGoVersion calls).2.2
        = (fetch p targetGoVersion calls).2 ∧
      (Get p FETCH_INTERVAL nowTest nowStamp targetGoVersion calls).1.GolangVersion
        = targetGoVersion ∧
      ∃ rest, (Get p FETCH_INTERVAL nowTest nowStamp targetGoVersion calls).2.2
          = calls ++ Call.Fetch "main" :: rest ∧
        ∀ c ∈ rest, Call.isRefresh c = false := by
  have h : p.lastFetchTime = 0 ∨ p.lastFetchTime + FETCH_INTERVAL < nowTest := by
    rcases hstale with hc | hc
    · exact Or.inl hc
    · exact Or.inr (by omega)
  have hget : Get p FETCH_INTERVAL nowTest nowStamp targetGoVersion calls
      = ((fetch p targetGoVersion calls).1,
          { p with lastFetchTime := nowStamp, cachedData := (fetch p targetGoVersion calls).1 },
          (fetch p targetGoVersion calls).2) := by
    unfold Get
    simp [h, fetch_stamp]
  rw [hget]
  refine ⟨rfl, rfl, rfl, rfl, ?_⟩
  obtain ⟨rest, e, n⟩ := fetchLoop_noRefresh p (semver.NewVersion targetGoVersion)
    p.config.Releases (calls ++ [Call.Fetch "main"])
  exact ⟨rest, by simp only [fetch, e, List.append_assoc, List.singleton_append], n⟩

/-- A provider without a snapshot, whose tile refresh fails, asked for
1.22.0. -/
theorem Get_stale_witness :
    (Get sample.providerAhead 600 1601 1602 "1.22.0" []).1
        = (fetch sample.providerAhead "1.22.0" []).1 ∧
      (Get sample.providerAhead 600 1601 1602 "1.22.0" []).2.1
        = { sample.providerAhead with
            lastFetchTime := 1602
            cachedData := (fetch sample.providerAhead "1.22.0" []).1 } ∧
      (Get sample.providerAhead 600 1601 1602 "1.22.0" []).2.2
        = (fetch sample.providerAhead "1.22.0" []).2 ∧
      (Get sample.providerAhead 600 1601 1602 "1.22.0" []).1.GolangVersion = "1.22.0" ∧
      ∃ rest, (Get sample.providerAhead 600 1601 1602 "1.22.0" []).2.2
          = [] ++ Call.Fetch "main" :: rest ∧
        ∀ c ∈ rest, Call.isRefresh c = false :=
  Get_stale sample.providerAhead 600 1601 1602 "1.22.0" [] (Or.inl rfl)

/-- The row of a release one of whose fetches fails. -/
theorem fetchRelease_fetch_failed (p : releasesDataProvider) (tv : Option semver.Version)
    (r : config.Release) (c : List Call) (hd : r.OnlyDevelop = false)
    (hfail : (releasedAnswer p r c).2 ≠ none ∨
      ((releasedAnswer p r c).2 = none ∧ (firstAnswer p r c).2 ≠ none)) :
    (fetchRelease p tv r c).1.BumpedInTas = "n/a" ∧
      (fetchRelease p tv r c).1.BumpedInTasw = "n/a" ∧
      (fetchRelease p tv r c).1.BumpedInIst = "n/a" ∧
      (fetchRelease p tv r c).1.AllBumped = false := by
  simp only [releasedAnswer, firstAnswer] at hfail
  simp only [fetchRelease, evaluateRelease, hd]
  revert hfail
  generalize p.githubVersion.GetReleasedVersion (c ++ [Call.GetDevelopVersion r]) r = rel
  generalize p.githubVersion.GetFirstReleasedVersion
    (c ++ [Call.GetDevelopVersion r] ++ [Call.GetReleasedVersion r]) r rel.1 = first
  obtain ⟨relV, relE⟩ := rel
  obtain ⟨firstV, firstE⟩ := first
  intro hfail
  cases relE with
  | some e => simp
  | none =>
    cases firstE with
    | some e => simp
    | none => simp at hfail

/-- The row of a release whose first-carrying release version does not
parse. -/
theorem fetchRelease_pair_unparsed (p : releasesDataProvider) (tv : Option semver.Version)
    (r : config.Release) (c : List Call) (hd : r.OnlyDevelop = false)
    (hrel : (releasedAnswer p r c).2 = none) (hfirst : (firstAnswer p r c).2 = none)
    (hfr : semver.NewVersion (firstAnswer p r c).1.ReleaseVersion = none) :
    (fetchRelease p tv r c).1.BumpedInTas = "" ∧
      (fetchRelease p tv r c).1.BumpedInTasw = "" ∧
      (fetchRelease p tv r c).1.BumpedInIst = "" ∧
      (fetchRelease p tv r c).1.AllBumped = false := by
  simp only [releasedAnswer, firstAnswer] at hrel hfirst hfr
  simp only [fetchRelease, evaluateRelease, hd, hrel, hfirst, bumpedInTiles, hfr]
  simp

/-- The degraded rows of a release that is not develop-only: when the fetch of
the released version or of the first-carrying pair fails, the three statuses
keep their initial `n/a` and `AllBumped` is false; when both succeed and the
release version of the pair does not parse, the three statuses are empty and
`AllBumped` is false. -/
theorem fetch_degraded (p : releasesDataProvider) (target : String) (calls : List Call)
    (i : Nat) (r : config.Release) (h : p.config.Releases[i]? = some r)
    (hd : r.OnlyDevelop = false) :
    ∃ row, (fetch p target calls).1.Releases[i]? = some row ∧
      (((releasedAnswer p r (callsAt p target calls i)).2 ≠ none ∨
          ((releasedAnswer p r (callsAt p target calls i)).2 = none ∧
            (firstAnswer p r (callsAt p target calls i)).2 ≠ none)) →
        row.BumpedInTas = "n/a" ∧ row.BumpedInTasw = "n/a" ∧ row.BumpedInIst = "n/a" ∧
          row.AllBumped = false) ∧
      ((releasedAnswer p r (callsAt p target calls i)).2 = none →
        (firstAnswer p r (callsAt p target calls i)).2 = none →
        semver.NewVersion (firstAnswer p r (callsAt p target calls i)).1.ReleaseVersion = none →
        row.BumpedInTas = "" ∧ row.BumpedInTasw = "" ∧ row.BumpedInIst = "" ∧
          row.AllBumped = false) :=
  ⟨_, fetch_row p target calls i r h,
    fun hfail => fetchRelease_fetch_failed p _ r _ hd hfail,
    fun hrel hfirst hfr => fetchRelease_pair_unparsed p _ r _ hd hrel hfirst hfr⟩

/-- The first release of the sample configuration with the source fetcher
down. -/
theorem fetch_degraded_witness :
    ∃ row, (fetch sample.providerDown "1.21.0" []).1.Releases[0]? = some row ∧
      row.BumpedInTas = "n/a" ∧ row.BumpedInTasw = "n/a" ∧ row.BumpedInIst = "n/a" ∧
      row.AllBumped = false :=
  (fetch_degraded sample.providerDown "1.21.0" [] 0 sample.routing (by decide) (by decide)).imp
    fun _ hrow => ⟨hrow.1, hrow.2.1 (Or.inl (by decide))⟩

/-- C9, at a failing input: the release is not develop-only and names a TAS
and an IST component, its released-version fetch fails, and its three statuses
are the not-applicable value `n/a`, not the unknown one; on the sibling path,
where the pair is fetched and its release version does not parse, the same
release gets the three empty statuses. `AllBumped` is false on both. -/
theorem fetch_failure_statuses_not_applicable :
    sample.routing.OnlyDevelop = false ∧
    sample.routing.TasReleaseName ≠ "" ∧ sample.routing.IstReleaseName ≠ "" ∧
    (releasedAnswer sample.providerDown sample.routing
      (callsAt sample.providerDown "1.21.0" [] 0)).2 = some "unreachable" ∧
    (fetch sample.providerDown "1.21.0" []).1.Releases[0]?.map
        (fun row => (row.BumpedInTas, row.BumpedInTasw, row.BumpedInIst, row.AllBumped))
      = some ("n/a", "n/a", "n/a", false) ∧
    statusNotApplicable "n/a" = true ∧
    semver.NewVersion
      (firstAnswer sample.providerBadPair sample.routing
        (callsAt sample.providerBadPair "1.21.0" [] 0)).1.ReleaseVersion = none ∧
    (fetch sample.providerBadPair "1.21.0" []).1.Releases[0]?.map
        (fun row => (row.BumpedInTas, row.BumpedInTasw, row.BumpedInIst, row.AllBumped))
      = some ("", "", "", false) := by
  decide

/-- Without a parsed target, `bumpedInTiles` does not consult the tile
fetcher. -/
theorem bumpedInTiles_target_unparsed (p : releasesDataProvider) (q : tasVersionProvider)
    (r : config.Release) (info : version.VersionInfo) (c : List Call) :
    bumpedInTiles { p with tasVersion := q } r info none c = bumpedInTiles p r info none c := by
  unfold bumpedInTiles
  cases semver.NewVersion info.ReleaseVersion with
  | none => rfl
  | some fr =>
    cases semver.NewVersion info.GolangVersion with
    | none => rfl
    | some fg => simp only [isTargetReleased, getTileBumpInfo_not_released]

theorem fetchRelease_target_unparsed (p : releasesDataProvider) (q : tasVersionProvider)
    (r : config.Release) (c : List Call) :
    fetchRelease { p with tasVersion := q } none r c = fetchRelease p none r c := by
  simp only [fetchRelease, evaluateRelease, bumpedInTiles_target_unparsed]

/-- The row of a release whose first-carrying toolchain version does not
parse. -/
theorem fetchRelease_toolchain_unparsed (p : releasesDataProvider) (tv : Option semver.Version)
    (r : config.Release) (c : List Call) (fr : semver.Version) (hd : r.OnlyDevelop = false)
    (hrel : (releasedAnswer p r c).2 = none) (hfirst : (firstAnswer p r c).2 = none)
    (hfr : semver.NewVersion (firstAnswer p r c).1.ReleaseVersion = some fr)
    (hfg : semver.NewVersion (firstAnswer p r c).1.GolangVersion = none) :
    (fetchRelease p tv r c).1.BumpedInTas = "" ∧
      (fetchRelease p tv r c).1.BumpedInTasw = "" ∧
      (fetchRelease p tv r c).1.BumpedInIst = "" ∧
      (fetchRelease p tv r c).1.AllBumped = false := by
  simp only [releasedAnswer, firstAnswer] at hrel hfirst hfr hfg
  simp only [fetchRelease, evaluateRelease, hd, hrel, hfirst, bumpedInTiles, hfr, hfg]
  simp

/-- The statuses of a release that is not develop-only, without a parsed
target: none is confirmed and `AllBumped` is false. -/
theorem fetchRelease_target_unparsed_statuses (p : releasesDataProvider) (r : config.Release)
    (c : List Call) (hd : r.OnlyDevelop = false) :
    statusConfirmed (fetchRelease p none r c).1.BumpedInTas = false ∧
      statusConfirmed (fetchRelease p none r c).1.BumpedInTasw = false ∧
      statusConfirmed (fetchRelease p none r c).1.BumpedInIst = false ∧
      (fetchRelease p none r c).1.AllBumped = false := by
  have hno : ∀ name : String, statusConfirmed (statusNotReleased name) = false := by
    intro name
    unfold statusNotReleased
    split_ifs <;> decide
  by_cases hfail : (releasedAnswer p r c).2 ≠ none ∨
      ((releasedAnswer p r c).2 = none ∧ (firstAnswer p r c).2 ≠ none)
  · obtain ⟨h1, h2, h3, h4⟩ := fetchRelease_fetch_failed p none r c hd hfail
    rw [h1, h2, h3, h4]
    decide
  · have hrel : (releasedAnswer p r c).2 = none := by
      by_contra hc
      exact hfail (Or.inl hc)
    have hfirst : (firstAnswer p r c).2 = none := by
      by_contra hc
      exact hfail (Or.inr ⟨hrel, hc⟩)
    cases hfr : semver.NewVersion (firstAnswer p r c).1.ReleaseVersion with
    | none =>
      obtain ⟨h1, h2, h3, h4⟩ := fetchRelease_pair_unparsed p none r c hd hrel hfirst hfr
      rw [h1, h2, h3, h4]
      decide
    | some fr =>
      cases hfg : semver.NewVersion (firstAnswer p r c).1.GolangVersion with
      | none =>
        obtain ⟨h1, h2, h3, h4⟩ :=
          fetchRelease_toolchain_unparsed p none r c fr hd hrel hfirst hfr hfg
        rw [h1, h2, h3, h4]
        decide
      | some fg =>
        rw [fetchRelease_not_released p none r c fr fg hd hrel hfirst hfr hfg rfl]
        exact ⟨hno _, hno _, hno _, rfl⟩

/-- The rows of a pass whose target does not parse: every release that is not
develop-only has a row, which is the same for every tile fetcher; no status of
the row is confirmed and `AllBumped` is false; and when the released version
and the first-carrying pair were fetched and the pair parses, a tile with a
component name has status `no` and one without `n/a`. -/
theorem fetch_target_unparsed (p : releasesDataProvider) (target : String) (calls : List Call)
    (i : Nat) (r : config.Release) (h : p.config.Releases[i]? = some r)
    (hd : r.OnlyDevelop = false) (ht : semver.NewVersion target = none) :
    ∃ row,
      (∀ q : tasVersionProvider,
        (fetch { p with tasVersion := q } target calls).1.Releases[i]? = some row) ∧
      statusConfirmed row.BumpedInTas = false ∧ statusConfirmed row.BumpedInTasw = false ∧
      statusConfirmed row.BumpedInIst = false ∧ row.AllBumped = false ∧
      ((releasedAnswer p r (callsAt p target calls i)).2 = none →
        (firstAnswer p r (callsAt p target calls i)).2 = none →
        (semver.NewVersion
          (firstAnswer p r (callsAt p target calls i)).1.ReleaseVersion).isSome = true →
        (semver.NewVersion
          (firstAnswer p r (callsAt p target calls i)).1.GolangVersion).isSome = true →
        row.BumpedInTas = (if r.TasReleaseName = "" then "n/a" else "no") ∧
        row.BumpedInTasw = (if r.TaswReleaseName = "" then "n/a" else "no") ∧
        row.BumpedInIst = (if r.IstReleaseName = "" then "n/a" else "no")) := by
  refine ⟨(fetchRelease p none r (callsAt p target calls i)).1, ?_, ?_⟩
  · intro q
    rw [fetch_row { p with tasVersion := q } target calls i r h, callsAt_tiles, ht,
      fetchRelease_target_unparsed]
  · obtain ⟨h1, h2, h3, h4⟩ := fetchRelease_target_unparsed_statuses p r
      (callsAt p target calls i) hd
    refine ⟨h1, h2, h3, h4, ?_⟩
    intro hrel hfirst hfr hfg
    obtain ⟨fr, hfr⟩ := Option.isSome_iff_exists.mp hfr
    obtain ⟨fg, hfg⟩ := Option.isSome_iff_exists.mp hfg
    rw [fetchRelease_not_released p none r _ fr fg hd hrel hfirst hfr hfg rfl]
    exact ⟨rfl, rfl, rfl⟩

/-- The target `go1.21`, which does not parse, at the first release of the
sample configuration. -/
theorem fetch_target_unparsed_witness :
    ∃ row,
      (∀ q : tasVersionProvider,
        (fetch { sample.provider with tasVersion := q } "go1.21" []).1.Releases[0]? = some row) ∧
      statusConfirmed row.BumpedInTas = false ∧ statusConfirmed row.BumpedInTasw = false ∧
      statusConfirmed row.BumpedInIst = false ∧ row.AllBumped = false ∧
      row.BumpedInTas = "no" ∧ row.BumpedInTasw = "n/a" ∧ row.BumpedInIst = "no" :=
  (fetch_target_unparsed sample.provider "go1.21" [] 0 sample.routing (by decide) (by decide)
    (by decide)).imp
    fun _ hrow => ⟨hrow.1, hrow.2.1, hrow.2.2.1, hrow.2.2.2.1, hrow.2.2.2.2.1,
      hrow.2.2.2.2.2 (by decide) (by decide) (by decide) (by decide)⟩

/-- C10, at a failing input: the target `go1.21` does not parse, the release
is not develop-only and names a TAS component, its released-version fetch
fails, and its TAS status is the not-applicable value `n/a` instead of a
not-yet one; with the same target and the fetches answered, the status of the
same tile is `no`. -/
theorem target_unparsed_status_not_applicable :
    semver.NewVersion "go1.21" = none ∧
    sample.routing.OnlyDevelop = false ∧ sample.routing.TasReleaseName ≠ "" ∧
    (releasedAnswer sample.providerDown sample.routing
      (callsAt sample.providerDown "go1.21" [] 0)).2 = some "unreachable" ∧
    (fetch sample.providerDown "go1.21" []).1.Releases[0]?.map
        (fun row => (row.BumpedInTas, row.AllBumped))
      = some ("n/a", false) ∧
    (fetch sample.provider "go1.21" []).1.Releases[0]?.map
        (fun row => (row.BumpedInTas, row.AllBumped))
      = some ("no", false) := by
  decide

/-- C11, as the code has it: in the scenario with the toolchain versions
written as the comparator parses them (first-carrying pair `1.21`, `v2.3.0`,
target `1.21`), a TAS component at v2.3.0, no TASW component and an IST
component at v2.2.0, the statuses are `yes (2.3.0)`, `n/a` and `no (2.2.0)` and
`AllBumped` is false. -/
theorem fetch_scenario_plain (p : releasesDataProvider) (calls : List Call) (i : Nat)
    (r : config.Release) (h : p.config.Releases[i]? = some r) (hd : r.OnlyDevelop = false)
    (hTas : r.TasReleaseName ≠ "") (hTasw : r.TaswReleaseName = "")
    (hIst : r.IstReleaseName ≠ "")
    (hrel : (releasedAnswer p r (callsAt p "1.21" calls i)).2 = none)
    (hfirst : firstAnswer p r (callsAt p "1.21" calls i) = (⟨"1.21", "v2.3.0"⟩, none))
    (hTasV : p.tasVersion.GetTasReleaseVersion (callsAtTiles p r (callsAt p "1.21" calls i))
      r.TasReleaseName = ("v2.3.0", true))
    (hIstV : p.tasVersion.GetIstReleaseVersion
      (callsAtTiles p r (callsAt p "1.21" calls i) ++ [Call.GetTasReleaseVersion r.TasReleaseName])
      r.IstReleaseName = ("v2.2.0", true)) :
    ∃ row, (fetch p "1.21" calls).1.Releases[i]? = some row ∧
      row.BumpedInTas = "yes (2.3.0)" ∧ row.BumpedInTasw = "n/a" ∧
      row.BumpedInIst = "no (2.2.0)" ∧ row.AllBumped = false := by
  have hfr : semver.NewVersion (firstAnswer p r (callsAt p "1.21" calls i)).1.ReleaseVersion
      = some ⟨2, 3, 0, "", "", "v2.3.0"⟩ := by rw [hfirst]; decide
  have hfg : semver.NewVersion (firstAnswer p r (callsAt p "1.21" calls i)).1.GolangVersion
      = some ⟨1, 21, 0, "", "", "1.21"⟩ := by rw [hfirst]; decide
  have hf2 : (firstAnswer p r (callsAt p "1.21" calls i)).2 = none := by rw [hfirst]
  have hreleased : isTargetReleased (semver.NewVersion "1.21") ⟨1, 21, 0, "", "", "1.21"⟩
      = true := by decide
  obtain ⟨h1, h2, h3, h4⟩ := fetchRelease_tiles p (semver.NewVersion "1.21") r
    (callsAt p "1.21" calls i) _ _ hd hrel hf2 hfr hfg
  rw [hreleased] at h1 h2 h3 h4
  have hc1 : tileCalls "TAS" r.TasReleaseName true (callsAtTiles p r (callsAt p "1.21" calls i))
      = callsAtTiles p r (callsAt p "1.21" calls i)
          ++ [Call.GetTasReleaseVersion r.TasReleaseName] := by
    simp [tileCalls, hTas]
  have hc2 : ∀ c, tileCalls "TASW" r.TaswReleaseName true c = c := by
    intro c; simp [tileCalls, hTasw]
  rw [hc1, hc2] at h3 h4
  rw [hc1] at h2
  have htas := getTileBumpInfo_found p "TAS" r.TasReleaseName "v2.3.0"
    ⟨2, 3, 0, "", "", "v2.3.0"⟩ ⟨2, 3, 0, "", "", "v2.3.0"⟩
    (callsAtTiles p r (callsAt p "1.21" calls i)) _ hTas (semver.NewVersion_valid hfr)
    (by simp only [tileLookup, if_true, hTasV]; rfl) (by decide)
  have hist := getTileBumpInfo_found p "IST" r.IstReleaseName "v2.2.0"
    ⟨2, 3, 0, "", "", "v2.3.0"⟩ ⟨2, 2, 0, "", "", "v2.2.0"⟩
    (callsAtTiles p r (callsAt p "1.21" calls i) ++ [Call.GetTasReleaseVersion r.TasReleaseName])
    _ hIst (semver.NewVersion_valid hfr) (by simp only [tileLookup, hIstV]; rfl) (by decide)
  have htasw : ∀ c, (getTileBumpInfo p "TASW" r.TaswReleaseName
      ⟨2, 3, 0, "", "", "v2.3.0"⟩ true c).1 = ("n/a", true) := by
    intro c; simp [getTileBumpInfo, hTasw]
  refine ⟨_, fetch_row p "1.21" calls i r h, ?_, ?_, ?_, ?_⟩
  · rw [h1, htas]; decide
  · rw [h2, htasw]
  · rw [h3, hist]; decide
  · rw [h4, htas, htasw, hist]; decide

/-- The scenario at the first release of the sample configuration. -/
theorem fetch_scenario_plain_witness :
    ∃ row, (fetch sample.providerPlain "1.21" []).1.Releases[0]? = some row ∧
      row.BumpedInTas = "yes (2.3.0)" ∧ row.BumpedInTasw = "n/a" ∧
      row.BumpedInIst = "no (2.2.0)" ∧ row.AllBumped = false :=
  fetch_scenario_plain sample.providerPlain [] 0 sample.routing (by decide) (by decide)
    (by decide) (by decide) (by decide) (by decide) (by decide) (by decide) (by decide)

/-- C11 does not hold as stated: with the pair `go1.21`, `v2.3.0` and the target
`go1.21`, neither toolchain version parses and the three statuses are empty;
TAS is not confirmed. -/
theorem scenario_go_statuses_empty :
    semver.NewVersion "go1.21" = none ∧
    sample.routing.OnlyDevelop = false ∧
    firstAnswer sample.providerGo sample.routing (callsAt sample.providerGo "go1.21" [] 0)
      = (⟨"go1.21", "v2.3.0"⟩, none) ∧
    sample.providerGo.tasVersion.GetTasReleaseVersion
      (callsAtTiles sample.providerGo sample.routing (callsAt sample.providerGo "go1.21" [] 0))
      sample.routing.TasReleaseName = ("v2.3.0", true) ∧
    (fetch sample.providerGo "go1.21" []).1.Releases[0]?.map
        (fun row => (row.BumpedInTas, row.BumpedInTasw, row.BumpedInIst, row.AllBumped))
      = some ("", "", "", false) := by
  decide

/-- The status of a tile whose lookup answers a version that parses, with the
target released. -/
theorem getTileBumpInfo_found_status (p : releasesDataProvider)
    (tileName releaseName : String) (fr : semver.Version) (calls : List Call)
    (answer : String × Bool) (calls1 : List Call) (tileV : semver.Version)
    (hName : releaseName ≠ "") (hfr : fr.Valid)
    (hLookup : tileLookup p tileName releaseName calls = some (answer, calls1))
    (hFound : answer.2 = true) (hTile : semver.NewVersion answer.1 = some tileV) :
    (getTileBumpInfo p tileName releaseName fr true calls).1.1
      = (if tileV.GreaterThanEqual fr = true then "yes (" ++ tileV.String ++ ")"
          else "no (" ++ tileV.String ++ ")") := by
  obtain ⟨a, b⟩ := answer
  simp only at hFound hTile
  subst hFound
  rw [getTileBumpInfo_found p tileName releaseName a fr tileV calls calls1 hName hfr hLookup
    hTile]
  split_ifs <;> rfl

/-- C12, as the code has it: for a release that is not develop-only, whose
released version and first-carrying pair were fetched and parse, and whose
target parses older than the first-carrying toolchain version, the target is
treated as released: a tile with a component name found at a version `v` that
parses has status `yes (v)` when `v` is at or above the first-carrying release
version and `no (v)` otherwise, and `AllBumped` is true exactly when every
status is not-applicable or confirmed. -/
theorem fetch_target_older (p : releasesDataProvider) (target : String) (calls : List Call)
    (i : Nat) (r : config.Release) (firstReleaseV firstGolangVersion targetV : semver.Version)
    (h : p.config.Releases[i]? = some r) (hd : r.OnlyDevelop = false)
    (hrel : (releasedAnswer p r (callsAt p target calls i)).2 = none)
    (hfirst : (firstAnswer p r (callsAt p target calls i)).2 = none)
    (hfr : semver.NewVersion (firstAnswer p r (callsAt p target calls i)).1.ReleaseVersion
      = some firstReleaseV)
    (hfg : semver.NewVersion (firstAnswer p r (callsAt p target calls i)).1.GolangVersion
      = some firstGolangVersion)
    (ht : semver.NewVersion target = some targetV)
    (hlt : targetV.Compare firstGolangVersion < 0) :
    isTargetReleased (some targetV) firstGolangVersion = true ∧
    ∃ row, (fetch p target calls).1.Releases[i]? = some row ∧
      (∀ (answer : String × Bool) (calls1 : List Call) (tileV : semver.Version),
        r.TasReleaseName ≠ "" →
        tileLookup p "TAS" r.TasReleaseName (callsAtTiles p r (callsAt p target calls i))
          = some (answer, calls1) →
        answer.2 = true → semver.NewVersion answer.1 = some tileV →
        row.BumpedInTas
          = (if tileV.GreaterThanEqual firstReleaseV = true then "yes (" ++ tileV.String ++ ")"
              else "no (" ++ tileV.String ++ ")")) ∧
      (∀ (answer : String × Bool) (calls1 : List Call) (tileV : semver.Version),
        r.TaswReleaseName ≠ "" →
        tileLookup p "TASW" r.TaswReleaseName
            (tileCalls "TAS" r.TasReleaseName true
              (callsAtTiles p r (callsAt p target calls i)))
          = some (answer, calls1) →
        answer.2 = true → semver.NewVersion answer.1 = some tileV →
        row.BumpedInTasw
          = (if tileV.GreaterThanEqual firstReleaseV = true then "yes (" ++ tileV.String ++ ")"
              else "no (" ++ tileV.String ++ ")")) ∧
      (∀ (answer : String × Bool) (calls1 : List Call) (tileV : semver.Version),
        r.IstReleaseName ≠ "" →
        tileLookup p "IST" r.IstReleaseName
            (tileCalls "TASW" r.TaswReleaseName true
              (tileCalls "TAS" r.TasReleaseName true
                (callsAtTiles p r (callsAt p target calls i))))
          = some (answer, calls1) →
        answer.2 = true → semver.NewVersion answer.1 = some tileV →
        row.BumpedInIst
          = (if tileV.GreaterThanEqual firstReleaseV = true then "yes (" ++ tileV.String ++ ")"
              else "no (" ++ tileV.String ++ ")")) ∧
      (row.AllBumped = true ↔
        (statusNotApplicable row.BumpedInTas || statusConfirmed row.BumpedInTas) = true ∧
        (statusNotApplicable row.BumpedInTasw || statusConfirmed row.BumpedInTasw) = true ∧
        (statusNotApplicable row.BumpedInIst || statusConfirmed row.BumpedInIst) = true) := by
  have hnot : targetV.GreaterThan firstGolangVersion = false := by
    simp only [semver.Version.GreaterThan, decide_eq_false_iff_not]
    omega
  have hreleased : isTargetReleased (semver.NewVersion target) firstGolangVersion = true := by
    simp [ht, isTargetReleased, hnot]
  have hv := semver.NewVersion_valid hfr
  obtain ⟨h1, h2, h3, _⟩ := fetchRelease_tiles p (semver.NewVersion target) r
    (callsAt p target calls i) _ _ hd hrel hfirst hfr hfg
  rw [hreleased] at h1 h2 h3
  refine ⟨by simp [isTargetReleased, hnot], _, fetch_row p target calls i r h, ?_, ?_, ?_, ?_⟩
  · intro answer calls1 tileV hn hl hf hp
    rw [h1]
    exact getTileBumpInfo_found_status p _ _ _ _ answer calls1 tileV hn hv hl hf hp
  · intro answer calls1 tileV hn hl hf hp
    rw [h2]
    exact getTileBumpInfo_found_status p _ _ _ _ answer calls1 tileV hn hv hl hf hp
  · intro answer calls1 tileV hn hl hf hp
    rw [h3]
    exact getTileBumpInfo_found_status p _ _ _ _ answer calls1 tileV hn hv hl hf hp
  · rw [fetchRelease_allBumped_iff]
    have htr : TargetReleased p (semver.NewVersion target) r (callsAt p target calls i) :=
      ⟨hrel, hfirst, _, _, _, hfr, hfg, ht, hnot⟩
    simp [hd, htr]

/-- Target 1.20.0 against the first-carrying 1.21.0 with all tiles at v2.5.0:
the statuses are confirmed and `AllBumped` is true. -/
theorem fetch_target_older_witness :
    ∃ row, (fetch sample.providerAhead "1.20.0" []).1.Releases[0]? = some row ∧
      row.BumpedInTas = "yes (2.5.0)" ∧ row.BumpedInIst = "yes (2.5.0)" := by
  obtain ⟨_, row, hrow, hTas, _, hIst, _⟩ :=
    fetch_target_older sample.providerAhead "1.20.0" [] 0 sample.routing
      ⟨2, 3, 0, "", "", "v2.3.0"⟩ ⟨1, 21, 0, "", "", "1.21.0"⟩ ⟨1, 20, 0, "", "", "1.20.0"⟩
      (by decide) (by decide) (by decide) (by decide) (by decide) (by decide) (by decide)
      (by decide)
  exact ⟨row, hrow,
    hTas ("v2.5.0", true) _ ⟨2, 5, 0, "", "", "v2.5.0"⟩ (by decide) rfl rfl (by decide),
    hIst ("v2.5.0", true) _ ⟨2, 5, 0, "", "", "v2.5.0"⟩ (by decide) rfl rfl (by decide)⟩

/-- C12 does not hold as stated: the target 1.20.0 is older than the
first-carrying 1.21.0, the release is not develop-only and names a TAS
component, and yet its TAS status is confirmed and `AllBumped` is true. -/
theorem target_older_is_released :
    semver.Version.Compare ⟨1, 20, 0, "", "", "1.20.0"⟩ ⟨1, 21, 0, "", "", "1.21.0"⟩ = -1 ∧
    semver.NewVersion "1.20.0" = some ⟨1, 20, 0, "", "", "1.20.0"⟩ ∧
    (firstAnswer sample.providerAhead sample.routing
      (callsAt sample.providerAhead "1.20.0" [] 0)).1.GolangVersion = "1.21.0" ∧
    semver.NewVersion "1.21.0" = some ⟨1, 21, 0, "", "", "1.21.0"⟩ ∧
    sample.routing.OnlyDevelop = false ∧ sample.routing.TasReleaseName ≠ "" ∧
    (fetch sample.providerAhead "1.20.0" []).1.Releases[0]?.map
        (fun row => (row.BumpedInTas, row.BumpedInTasw, row.BumpedInIst, row.AllBumped))
      = some ("yes (2.5.0)", "n/a", "yes (2.5.0)", true) := by
  decide

/-- The result of a tile evaluation is a function of the answer to the tile's
own lookup. -/
theorem getTileBumpInfo_own_answer (p p' : releasesDataProvider)
    (tileName releaseName : String) (fr : semver.Version) (released : Bool)
    (calls calls' : List Call)
    (hsame : (tileLookup p tileName releaseName calls).map (fun l => l.1)
      = (tileLookup p' tileName releaseName calls').map (fun l => l.1)) :
    (getTileBumpInfo p tileName releaseName fr released calls).1
      = (getTileBumpInfo p' tileName releaseName fr released calls').1 := by
  unfold getTileBumpInfo
  by_cases hn : releaseName = ""
  · simp [hn]
  · cases released with
    | false => simp [hn]
    | true =>
      simp only [hn, if_false, Bool.not_true]
      cases h1 : tileLookup p tileName releaseName calls with
      | none =>
        cases h2 : tileLookup p' tileName releaseName calls' with
        | none => rfl
        | some l' => rw [h1, h2] at hsame; simp at hsame
      | some l =>
        cases h2 : tileLookup p' tileName releaseName calls' with
        | none => rw [h1, h2] at hsame; simp at hsame
        | some l' =>
          rw [h1, h2] at hsame
          simp only [Option.map_some', Option.some.injEq] at hsame
          obtain ⟨a, c⟩ := l
          obtain ⟨a', c'⟩ := l'
          simp only at hsame
          subst hsame
          cases hf : a.2 with
          | false => simp [hf]
          | true =>
            cases hp : semver.NewVersion a.1 with
            | none => simp [hf, hp]
            | some v =>
              by_cases hg : fr.GreaterThan v = true
              · simp [hf, hp, hg]
              · simp [hf, hp, hg]

/-- C13: every tile evaluation of a release that names no component for the
tile returns `n/a` and satisfied, whatever the tile, the target's release
state, the required version and the tile fetcher; a tile evaluation depends on
the collaborators only through the answer to that tile's own lookup; and in the
row of a release whose pair was fetched and parses, a tile without a component
name has status `n/a`. -/
theorem getTileBumpInfo_no_component (p : releasesDataProvider) (tileName : String)
    (fr : semver.Version) (released : Bool) (calls : List Call) :
    getTileBumpInfo p tileName "" fr released calls = (("n/a", true), calls) ∧
    (∀ (p' : releasesDataProvider) (releaseName : String) (calls' : List Call),
      (tileLookup p tileName releaseName calls).map (fun l => l.1)
        = (tileLookup p' tileName releaseName calls').map (fun l => l.1) →
      (getTileBumpInfo p tileName releaseName fr released calls).1
        = (getTileBumpInfo p' tileName releaseName fr released calls').1) ∧
    (∀ (target : String) (i : Nat) (r : config.Release) (fg : semver.Version),
      p.config.Releases[i]? = some r → r.OnlyDevelop = false →
      (releasedAnswer p r (callsAt p target calls i)).2 = none →
      (firstAnswer p r (callsAt p target calls i)).2 = none →
      semver.NewVersion (firstAnswer p r (callsAt p target calls i)).1.ReleaseVersion
        = some fr →
      semver.NewVersion (firstAnswer p r (callsAt p target calls i)).1.GolangVersion
        = some fg →
      ∃ row, (fetch p target calls).1.Releases[i]? = some row ∧
        (r.TasReleaseName = "" → row.BumpedInTas = "n/a") ∧
        (r.TaswReleaseName = "" → row.BumpedInTasw = "n/a") ∧
        (r.IstReleaseName = "" → row.BumpedInIst = "n/a")) := by
  have hna : ∀ (tn : String) (b : Bool) (c : List Call),
      getTileBumpInfo p tn "" fr b c = (("n/a", true), c) := by
    intro tn b c
    simp [getTileBumpInfo]
  refine ⟨hna _ _ _, fun p' releaseName calls' hsame =>
    getTileBumpInfo_own_answer p p' tileName releaseName fr released calls calls' hsame, ?_⟩
  intro target i r fg h hd hrel hfirst hfr hfg
  obtain ⟨h1, h2, h3, _⟩ := fetchRelease_tiles p (semver.NewVersion target) r
    (callsAt p target calls i) _ _ hd hrel hfirst hfr hfg
  refine ⟨_, fetch_row p target calls i r h, ?_, ?_, ?_⟩
  · intro hn; rw [h1, hn, hna]
  · intro hn; rw [h2, hn, hna]
  · intro hn; rw [h3, hn, hna]

/-- A tile whose lookup does not find the component, or finds a version that
does not parse, has the empty status and is not satisfied. -/
theorem getTileBumpInfo_lookup_failed (p : releasesDataProvider)
    (tileName releaseName : String) (fr : semver.Version) (calls : List Call)
    (answer : String × Bool) (calls1 : List Call) (hName : releaseName ≠ "")
    (hLookup : tileLookup p tileName releaseName calls = some (answer, calls1))
    (hfail : answer.2 = false ∨ semver.NewVersion answer.1 = none) :
    (getTileBumpInfo p tileName releaseName fr true calls).1 = ("", false) := by
  unfold getTileBumpInfo
  simp only [hName, if_false, Bool.not_true, hLookup]
  cases hf : answer.2 with
  | false => simp
  | true =>
    rcases hfail with h | h
    · rw [hf] at h; cases h
    · simp [h]

/-- The row of release `i` under another tile fetcher, when the fetches of the
release succeeded and its pair parses. -/
theorem fetch_row_tiles (p : releasesDataProvider) (q : tasVersionProvider) (target : String)
    (calls : List Call) (i : Nat) (r : config.Release) (fr fg : semver.Version)
    (h : p.config.Releases[i]? = some r) (hd : r.OnlyDevelop = false)
    (hrel : (releasedAnswer p r (callsAt p target calls i)).2 = none)
    (hfirst : (firstAnswer p r (callsAt p target calls i)).2 = none)
    (hfr : semver.NewVersion (firstAnswer p r (callsAt p target calls i)).1.ReleaseVersion
      = some fr)
    (hfg : semver.NewVersion (firstAnswer p r (callsAt p target calls i)).1.GolangVersion
      = some fg) :
    ∃ row, (fetch { p with tasVersion := q } target calls).1.Releases[i]? = some row ∧
      row.BumpedInTas
        = (getTileBumpInfo { p with tasVersion := q } "TAS" r.TasReleaseName fr
            (isTargetReleased (semver.NewVersion target) fg)
            (callsAtTiles p r (callsAt p target calls i))).1.1 ∧
      row.BumpedInTasw
        = (getTileBumpInfo { p with tasVersion := q } "TASW" r.TaswReleaseName fr
            (isTargetReleased (semver.NewVersion target) fg)
            (tileCalls "TAS" r.TasReleaseName (isTargetReleased (semver.NewVersion target) fg)
              (callsAtTiles p r (callsAt p target calls i)))).1.1 ∧
      row.BumpedInIst
        = (getTileBumpInfo { p with tasVersion := q } "IST" r.IstReleaseName fr
            (isTargetReleased (semver.NewVersion target) fg)
            (tileCalls "TASW" r.TaswReleaseName
              (isTargetReleased (semver.NewVersion target) fg)
              (tileCalls "TAS" r.TasReleaseName
                (isTargetReleased (semver.NewVersion target) fg)
                (callsAtTiles p r (callsAt p target calls i))))).1.1 := by
  obtain ⟨h1, h2, h3, _⟩ := fetchRelease_tiles { p with tasVersion := q }
    (semver.NewVersion target) r (callsAt p target calls i) fr fg hd hrel hfirst hfr hfg
  refine ⟨_, ?_, h1, h2, h3⟩
  rw [fetch_row { p with tasVersion := q } target calls i r h, callsAt_tiles]

/-- C14: for a release whose target is released, a tile with a component name
whose lookup does not find the component, or finds a version that does not
parse, has the empty status, which is neither confirmed nor not-applicable, and
the row's `AllBumped` is false; and the status of each tile stays the same
under any change of the answers of the other two tiles' lookups. -/
theorem fetch_tile_lookup_failed (p : releasesDataProvider) (target : String)
    (calls : List Call) (i : Nat) (r : config.Release)
    (firstReleaseV firstGolangVersion : semver.Version)
    (h : p.config.Releases[i]? = some r) (hd : r.OnlyDevelop = false)
    (hrel : (releasedAnswer p r (callsAt p target calls i)).2 = none)
    (hfirst : (firstAnswer p r (callsAt p target calls i)).2 = none)
    (hfr : semver.NewVersion (firstAnswer p r (callsAt p target calls i)).1.ReleaseVersion
      = some firstReleaseV)
    (hfg : semver.NewVersion (firstAnswer p r (callsAt p target calls i)).1.GolangVersion
      = some firstGolangVersion)
    (hreleased : isTargetReleased (semver.NewVersion target) firstGolangVersion = true) :
    ∃ row, (fetch p target calls).1.Releases[i]? = some row ∧
      (∀ (answer : String × Bool) (calls1 : List Call),
        r.TasReleaseName ≠ "" →
        tileLookup p "TAS" r.TasReleaseName (callsAtTiles p r (callsAt p target calls i))
          = some (answer, calls1) →
        answer.2 = false ∨ semver.NewVersion answer.1 = none →
        row.BumpedInTas = "" ∧ statusConfirmed row.BumpedInTas = false ∧
          statusNotApplicable row.BumpedInTas = false ∧ row.AllBumped = false) ∧
      (∀ (answer : String × Bool) (calls1 : List Call),
        r.TaswReleaseName ≠ "" →
        tileLookup p "TASW" r.TaswReleaseName
            (tileCalls "TAS" r.TasReleaseName true
              (callsAtTiles p r (callsAt p target calls i)))
          = some (answer, calls1) →
        answer.2 = false ∨ semver.NewVersion answer.1 = none →
        row.BumpedInTasw = "" ∧ statusConfirmed row.BumpedInTasw = false ∧
          statusNotApplicable row.BumpedInTasw = false ∧ row.AllBumped = false) ∧
      (∀ (answer : String × Bool) (calls1 : List Call),
        r.IstReleaseName ≠ "" →
        tileLookup p "IST" r.IstReleaseName
            (tileCalls "TASW" r.TaswReleaseName true
              (tileCalls "TAS" r.TasReleaseName true
                (callsAtTiles p r (callsAt p target calls i))))
          = some (answer, calls1) →
        answer.2 = false ∨ semver.NewVersion answer.1 = none →
        row.BumpedInIst = "" ∧ statusConfirmed row.BumpedInIst = false ∧
          statusNotApplicable row.BumpedInIst = false ∧ row.AllBumped = false) ∧
      (∀ q : tasVersionProvider,
        ∃ row', (fetch { p with tasVersion := q } target calls).1.Releases[i]? = some row' ∧
          (q.GetTasReleaseVersion = p.tasVersion.GetTasReleaseVersion →
            row'.BumpedInTas = row.BumpedInTas) ∧
          (q.GetTaswReleaseVersion = p.tasVersion.GetTaswReleaseVersion →
            row'.BumpedInTasw = row.BumpedInTasw) ∧
          (q.GetIstReleaseVersion = p.tasVersion.GetIstReleaseVersion →
            row'.BumpedInIst = row.BumpedInIst)) := by
  obtain ⟨h1, h2, h3, h4⟩ := fetchRelease_tiles p (semver.NewVersion target) r
    (callsAt p target calls i) _ _ hd hrel hfirst hfr hfg
  rw [hreleased] at h1 h2 h3 h4
  refine ⟨_, fetch_row p target calls i r h, ?_, ?_, ?_, ?_⟩
  · intro answer calls1 hn hl hfail
    have hres := getTileBumpInfo_lookup_failed p _ _ firstReleaseV _ answer calls1 hn hl hfail
    rw [h1, h4, hres]
    simp
    decide
  · intro answer calls1 hn hl hfail
    have hres := getTileBumpInfo_lookup_failed p _ _ firstReleaseV _ answer calls1 hn hl hfail
    rw [h2, h4, hres]
    simp
    decide
  · intro answer calls1 hn hl hfail
    have hres := getTileBumpInfo_lookup_failed p _ _ firstReleaseV _ answer calls1 hn hl hfail
    rw [h3, h4, hres]
    simp
    decide
  · intro q
    obtain ⟨row', hrow', q1, q2, q3⟩ := fetch_row_tiles p q target calls i r _ _ h hd hrel
      hfirst hfr hfg
    rw [hreleased] at q1 q2 q3
    refine ⟨row', hrow', ?_, ?_, ?_⟩
    · intro hq
      rw [q1, h1]
      exact congrArg Prod.fst (getTileBumpInfo_own_answer _ _ _ _ _ _ _ _
        (by simp [tileLookup, hq]))
    · intro hq
      rw [q2, h2]
      exact congrArg Prod.fst (getTileBumpInfo_own_answer _ _ _ _ _ _ _ _
        (by simp [tileLookup, hq]))
    · intro hq
      rw [q3, h3]
      exact congrArg Prod.fst (getTileBumpInfo_own_answer _ _ _ _ _ _ _ _
        (by simp [tileLookup, hq]))

/-- The release of the sample with three components: the TASW tile does not
find the component, so its status is empty and `AllBumped` is false. -/
theorem fetch_tile_lookup_failed_witness :
    ∃ row, (fetch sample.providerThree "1.21.0" []).1.Releases[0]? = some row ∧
      row.BumpedInTasw = "" ∧ row.AllBumped = false := by
  obtain ⟨row, hrow, _, hTasw, _, _⟩ :=
    fetch_tile_lookup_failed sample.providerThree "1.21.0" [] 0 sample.diego
      ⟨2, 3, 0, "", "", "v2.3.0"⟩ ⟨1, 21, 0, "", "", "1.21.0"⟩
      (by decide) (by decide) (by decide) (by decide) (by decide) (by decide) (by decide)
  have := hTasw ("", false) _ (by decide) rfl (Or.inl rfl)
  exact ⟨row, hrow, this.1, this.2.2.2⟩

theorem fetchLoop_append (p : releasesDataProvider) (tv : Option semver.Version) :
    ∀ (xs ys : List config.Release) (c : List Call),
      (fetchLoop p tv (xs ++ ys) [] c).2
        = (fetchLoop p tv ys [] (fetchLoop p tv xs [] c).2).2
  | [], ys, c => by simp [fetchLoop]
  | x :: xs, ys, c => by
    rw [List.cons_append, fetchLoop_cons, fetchLoop_cons]
    exact fetchLoop_append p tv xs ys _

/-- The calls made so far when the loop reaches release `i + 1` are those
after the iteration of release `i`. -/
theorem callsAt_succ (p : releasesDataProvider) (target : String) (calls : List Call)
    (i : Nat) (r : config.Release) (h : p.config.Releases[i]? = some r) :
    callsAt p target calls (i + 1)
      = (fetchRelease p (semver.NewVersion target) r (callsAt p target calls i)).2 := by
  unfold callsAt
  rw [List.take_succ, h, fetchLoop_append]
  simp [fetchLoop]

/-- C15, as the code has it: the iteration of a develop-only release makes one
call, `GetDevelopVersion` for the release, whose answer is the row's develop
version; it calls neither `GetReleasedVersion` nor `GetFirstReleasedVersion`
nor a lookup of the tile fetcher, and the row's released version and
first-carrying pair are empty. -/
theorem fetch_onlyDevelop_calls (p : releasesDataProvider) (target : String)
    (calls : List Call) (i : Nat) (r : config.Release)
    (h : p.config.Releases[i]? = some r) (hd : r.OnlyDevelop = true) :
    callsAt p target calls (i + 1)
        = callsAt p target calls i ++ [Call.GetDevelopVersion r] ∧
      ∃ row, (fetch p target calls).1.Releases[i]? = some row ∧
        row.VersionOnDev = (p.githubVersion.GetDevelopVersion (callsAt p target calls i) r).1 ∧
        row.ReleasedVersion = "" ∧ row.FirstReleasedGolangVersion = "" ∧
        row.FirstReleasedReleaseVersion = "" := by
  refine ⟨?_, _, fetch_row p target calls i r h, ?_⟩
  · rw [callsAt_succ p target calls i r h]
    simp [fetchRelease, evaluateRelease, hd]
  · simp [fetchRelease, evaluateRelease, hd]

/-- The develop-only release of the sample configuration: its iteration adds
the one call for the develop version. -/
theorem fetch_onlyDevelop_calls_witness :
    callsAt sample.provider "1.21.0" [] 2
        = callsAt sample.provider "1.21.0" [] 1 ++ [Call.GetDevelopVersion sample.healthcheck] ∧
      ∃ row, (fetch sample.provider "1.21.0" []).1.Releases[1]? = some row ∧
        row.VersionOnDev = "1.22.0" ∧
        row.ReleasedVersion = "" ∧ row.FirstReleasedGolangVersion = "" ∧
        row.FirstReleasedReleaseVersion = "" :=
  fetch_onlyDevelop_calls sample.provider "1.21.0" [] 1 sample.healthcheck (by decide)
    (by decide)

/-- C15 does not hold as stated: the release is develop-only, and the pass
calls the develop-version operation of the source fetcher for it and shows the
answer in its row. -/
theorem onlyDevelop_develop_version_fetched :
    sample.healthcheck.OnlyDevelop = true ∧
    sample.provider.config.Releases[1]? = some sample.healthcheck ∧
    Call.GetDevelopVersion sample.healthcheck ∈ (fetch sample.provider "1.21.0" []).2 ∧
    (fetch sample.provider "1.21.0" []).1.Releases[1]?.map (fun row => row.VersionOnDev)
      = some "1.22.0" := by
  decide

/-- The statuses of `bumpedInTiles` are a function of the answers to the three
lookups. -/
theorem bumpedInTiles_answers (p p' : releasesDataProvider) (r : config.Release)
    (info : version.VersionInfo) (tv : Option semver.Version) (k k' : List Call)
    (hTas : p'.tasVersion.GetTasReleaseVersion k' r.TasReleaseName
      = p.tasVersion.GetTasReleaseVersion k r.TasReleaseName)
    (hTasw : p'.tasVersion.GetTaswReleaseVersion (tileCalls "TAS" r.TasReleaseName true k')
        r.TaswReleaseName
      = p.tasVersion.GetTaswReleaseVersion (tileCalls "TAS" r.TasReleaseName true k)
        r.TaswReleaseName)
    (hIst : p'.tasVersion.GetIstReleaseVersion
        (tileCalls "TASW" r.TaswReleaseName true (tileCalls "TAS" r.TasReleaseName true k'))
        r.IstReleaseName
      = p.tasVersion.GetIstReleaseVersion
        (tileCalls "TASW" r.TaswReleaseName true (tileCalls "TAS" r.TasReleaseName true k))
        r.IstReleaseName) :
    (bumpedInTiles p' r info tv k').1 = (bumpedInTiles p r info tv k).1 := by
  unfold bumpedInTiles
  cases semver.NewVersion info.ReleaseVersion with
  | none => rfl
  | some fr =>
    cases semver.NewVersion info.GolangVersion with
    | none => rfl
    | some fg =>
      simp only [getTileBumpInfo_calls]
      cases isTargetReleased tv fg with
      | false => simp only [getTileBumpInfo_not_released]
      | true =>
        have e1 := getTileBumpInfo_own_answer p' p "TAS" r.TasReleaseName fr true k' k
          (by simp [tileLookup, hTas])
        have e2 := getTileBumpInfo_own_answer p' p "TASW" r.TaswReleaseName fr true
          (tileCalls "TAS" r.TasReleaseName true k') (tileCalls "TAS" r.TasReleaseName true k)
          (by simp [tileLookup, hTasw])
        have e3 := getTileBumpInfo_own_answer p' p "IST" r.IstReleaseName fr true
          (tileCalls "TASW" r.TaswReleaseName true (tileCalls "TAS" r.TasReleaseName true k'))
          (tileCalls "TASW" r.TaswReleaseName true (tileCalls "TAS" r.TasReleaseName true k))
          (by simp [tileLookup, hIst])
        rw [e1, e2, e3]

/-- The row of a release is a function of the release, the target, the CI base
URL and the answers to the calls of its iteration. -/
theorem fetchRelease_answers (p p' : releasesDataProvider) (tv : Option semver.Version)
    (r : config.Release) (c c' : List Call)
    (hci : p'.config.CIBaseURL = p.config.CIBaseURL)
    (hans : releaseAnswers p' r c' = releaseAnswers p r c) :
    (fetchRelease p' tv r c').1 = (fetchRelease p tv r c).1 := by
  simp only [releaseAnswers, Prod.mk.injEq] at hans
  obtain ⟨hdev, hrel, hfirst, hTas, hTasw, hIst⟩ := hans
  have hb := fun info => bumpedInTiles_answers p p' r info tv (callsAtTiles p r c)
    (callsAtTiles p' r c') hTas hTasw hIst
  simp only [releasedAnswer, firstAnswer, callsAtTiles] at hrel hfirst hb
  rw [hrel] at hfirst hb
  simp only [fetchRelease, evaluateRelease, config.Config.CIURL, hci, hdev, hrel, hfirst, hb]
  generalize p.githubVersion.GetReleasedVersion (c ++ [Call.GetDevelopVersion r]) r = rel
  generalize p.githubVersion.GetFirstReleasedVersion
    (c ++ [Call.GetDevelopVersion r] ++ [Call.GetReleasedVersion r]) r rel.1 = first
  obtain ⟨relV, relE⟩ := rel
  obtain ⟨firstV, firstE⟩ := first
  by_cases hd : r.OnlyDevelop = true
  · simp [hd]
  · cases relE with
    | some e => simp [hd]
    | none =>
      cases firstE with
      | some e => simp [hd]
      | none => simp [hd]

/-- Replacing the develop-version operation changes only the develop version
of the row. -/
theorem fetchRelease_develop (p : releasesDataProvider)
    (g : List Call → config.Release → String × Option String)
    (tv : Option semver.Version) (r : config.Release) (c : List Call) :
    fetchRelease { p with githubVersion := { p.githubVersion with GetDevelopVersion := g } }
        tv r c
      = ({ (fetchRelease p tv r c).1 with VersionOnDev := (g c r).1 },
          (fetchRelease p tv r c).2) := by
  rfl

theorem fetchLoop_develop (p : releasesDataProvider)
    (g : List Call → config.Release → String × Option String)
    (tv : Option semver.Version) :
    ∀ (rs : List config.Release) (c : List Call),
      (fetchLoop { p with githubVersion := { p.githubVersion with GetDevelopVersion := g } }
          tv rs [] c).2 = (fetchLoop p tv rs [] c).2 ∧
      (fetchLoop { p with githubVersion := { p.githubVersion with GetDevelopVersion := g } }
          tv rs [] c).1.map Release.withoutVersionOnDev
        = (fetchLoop p tv rs [] c).1.map Release.withoutVersionOnDev
  | [], c => by simp [fetchLoop]
  | r :: rs, c => by
    rw [fetchLoop_cons, fetchLoop_cons, fetchRelease_develop]
    obtain ⟨h1, h2⟩ := fetchLoop_develop p g tv rs (fetchRelease p tv r c).2
    exact ⟨h1, by simp only [List.map_cons, h2]; rfl⟩

/-- C16: replacing the develop-version operation of the source fetcher by any
other (one that fails, for instance) leaves the calls of the pass and every
row unchanged but for the develop version; and the row of a release is the
same in two passes that agree on the release, the target, the CI base URL and
the answers to the calls of that release's iteration, whatever the other
releases and the answers to their calls are. -/
theorem fetch_row_own_answers (p : releasesDataProvider) (target : String)
    (calls : List Call) :
    (∀ g : List Call → config.Release → String × Option String,
      (fetch { p with githubVersion := { p.githubVersion with GetDevelopVersion := g } }
          target calls).2 = (fetch p target calls).2 ∧
      (fetch { p with githubVersion := { p.githubVersion with GetDevelopVersion := g } }
          target calls).1.Releases.map Release.withoutVersionOnDev
        = (fetch p target calls).1.Releases.map Release.withoutVersionOnDev) ∧
    (∀ (p' : releasesDataProvider) (calls' : List Call) (i j : Nat) (r : config.Release),
      p.config.Releases[i]? = some r → p'.config.Releases[j]? = some r →
      p'.config.CIBaseURL = p.config.CIBaseURL →
      releaseAnswers p' r (callsAt p' target calls' j)
        = releaseAnswers p r (callsAt p target calls i) →
      (fetch p' target calls').1.Releases[j]? = (fetch p target calls).1.Releases[i]?) := by
  constructor
  · intro g
    exact fetchLoop_develop p g _ _ _
  · intro p' calls' i j r hi hj hci hans
    rw [fetch_row p target calls i r hi, fetch_row p' target calls' j r hj,
      fetchRelease_answers p p' _ r _ _ hci hans]

end dataprovider

/-! ## The order of the version comparator is transitive -/

namespace semver

theorem strGreater_irrefl : ∀ s : List Char, strGreater s s = false
  | [] => rfl
  | a :: s => by simp [strGreater, strGreater_irrefl s]

theorem strGreater_trans : ∀ a b c : List Char,
    strGreater a b = true → strGreater b c = true → strGreater a c = true
  | [], _, _, h, _ => by simp [strGreater] at h
  | _ :: _, [], _, _, h => by simp [strGreater] at h
  | _ :: _, _ :: _, [], _, _ => by simp [strGreater]
  | x :: a, y :: b, z :: c, hab, hbc => by
    simp only [strGreater] at hab hbc ⊢
    by_cases hxy : x.toNat > y.toNat
    · by_cases hyz : y.toNat > z.toNat
      · have : x.toNat > z.toNat := by omega
        simp [this]
      · by_cases hyz2 : y.toNat < z.toNat
        · simp [hyz, hyz2] at hbc
        · have : x.toNat > z.toNat := by omega
          simp [this]
    · by_cases hxy2 : x.toNat < y.toNat
      · simp [hxy, hxy2] at hab
      · simp only [hxy, hxy2, if_false] at hab
        by_cases hyz : y.toNat > z.toNat
        · have : x.toNat > z.toNat := by omega
          simp [this]
        · by_cases hyz2 : y.toNat < z.toNat
          · simp [hyz, hyz2] at hbc
          · simp only [hyz, hyz2, if_false] at hbc
            have h1 : ¬ x.toNat > z.toNat := by omega
            have h2 : ¬ x.toNat < z.toNat := by omega
            simp only [h1, h2, if_false]
            exact strGreater_trans a b c hab hbc

/-- Two different parts never compare as equal. -/
theorem comparePrePart_eq_zero {s o : List Char} (h : comparePrePart s o = 0) : s = o := by
  unfold comparePrePart at h
  by_contra hne
  by_cases hs : s = []
  · have ho : o ≠ [] := fun e => hne (by rw [hs, e])
    simp [hne, hs, ho] at h
  · by_cases ho : o = []
    · simp [hne, hs, ho] at h
    · simp only [hne, hs, ho, if_false] at h
      cases hpo : ParseUint o <;> cases hps : ParseUint s <;> simp only [hpo, hps] at h <;>
        omega

/-- When one part compares greater than another. -/
theorem comparePrePart_pos_iff (s o : List Char) :
    comparePrePart s o > 0 ↔
      s ≠ [] ∧ (o = [] ∨
        match ParseUint o, ParseUint s with
        | none, none => strGreater s o = true
        | none, some _ => False
        | some _, none => True
        | some oi, some si => si > oi) := by
  unfold comparePrePart
  by_cases hso : s = o
  · subst hso
    by_cases hs : s = []
    · simp [hs]
    · cases hp : ParseUint s with
      | none => simp [hs, hp, strGreater_irrefl]
      | some n => simp [hs, hp]
  · by_cases hs : s = []
    · have ho : o ≠ [] := fun e => hso (by rw [hs, e])
      simp [hso, hs, ho]
    · by_cases ho : o = []
      · simp [hso, hs, ho]
      · simp only [hso, hs, ho, if_false, ne_eq, not_false_eq_true, true_and, false_or]
        cases ParseUint o <;> cases ParseUint s <;> simp <;> split_ifs <;> simp_all

theorem comparePrePart_trans (a b c : List Char)
    (hab : comparePrePart a b > 0) (hbc : comparePrePart b c > 0) :
    comparePrePart a c > 0 := by
  rw [comparePrePart_pos_iff] at hab hbc ⊢
  obtain ⟨ha, hab⟩ := hab
  obtain ⟨hb, hbc⟩ := hbc
  refine ⟨ha, ?_⟩
  rcases hab with hab | hab
  · exact absurd hab hb
  · rcases hbc with hbc | hbc
    · exact Or.inl hbc
    · right
      cases hpa : ParseUint a with
      | none =>
        cases hpb : ParseUint b with
        | none =>
          cases hpc : ParseUint c with
          | none =>
            simp only [hpa, hpb, hpc] at hab hbc ⊢
            exact strGreater_trans a b c hab hbc
          | some ci => simp
        | some bi =>
          cases hpc : ParseUint c with
          | none => simp [hpb, hpc] at hbc
          | some ci => simp
      | some ai =>
        cases hpb : ParseUint b with
        | none => simp [hpa, hpb] at hab
        | some bi =>
          cases hpc : ParseUint c with
          | none => simp [hpb, hpc] at hbc
          | some ci =>
            simp only [hpa, hpb, hpc] at hab hbc ⊢
            omega

theorem comparePrereleaseLoop_trans (a b c : List (List Char)) :
    ∀ n i, comparePrereleaseLoop a b n i ≥ 0 → comparePrereleaseLoop b c n i ≥ 0 →
      comparePrereleaseLoop a c n i ≥ 0
  | 0, _, _, _ => by simp [comparePrereleaseLoop]
  | n + 1, i, hab, hbc => by
    simp only [comparePrereleaseLoop] at hab hbc ⊢
    by_cases hda : comparePrePart (a.getD i []) (b.getD i []) = 0
    · have e := comparePrePart_eq_zero hda
      rw [e] at hab ⊢
      by_cases hdb : comparePrePart (b.getD i []) (c.getD i []) = 0
      · simp only [hda, hdb, ne_eq, not_true_eq_false, if_false] at hab hbc ⊢
        have hbb : comparePrePart (b.getD i []) (b.getD i []) = 0 := by
          simp [comparePrePart]
        simp only [hbb, ne_eq, not_true_eq_false, if_false] at hab
        exact comparePrereleaseLoop_trans a b c n (i + 1) hab hbc
      · simp only [hdb, ne_eq, not_false_eq_true, if_true] at hbc ⊢
        exact hbc
    · simp only [hda, ne_eq, not_false_eq_true, if_true] at hab
      have hpos : comparePrePart (a.getD i []) (b.getD i []) > 0 := by omega
      by_cases hdb : comparePrePart (b.getD i []) (c.getD i []) = 0
      · have e := comparePrePart_eq_zero hdb
        rw [← e]
        simp only [hda, ne_eq, not_false_eq_true, if_true]
        exact hab
      · simp only [hdb, ne_eq, not_false_eq_true, if_true] at hbc
        have hpos2 : comparePrePart (b.getD i []) (c.getD i []) > 0 := by omega
        have hpos3 := comparePrePart_trans _ _ _ hpos hpos2
        have hne : comparePrePart (a.getD i []) (c.getD i []) ≠ 0 := by omega
        simp only [hne, ne_eq, not_false_eq_true, if_true]
        omega

/-- Beyond the end of both lists the loop finds no difference. -/
theorem comparePrereleaseLoop_beyond (s o : List (List Char)) :
    ∀ k i, s.length ≤ i → o.length ≤ i → comparePrereleaseLoop s o k i = 0
  | 0, _, _, _ => by simp [comparePrereleaseLoop]
  | k + 1, i, hs, ho => by
    simp only [comparePrereleaseLoop]
    rw [List.getD_eq_default s [] hs, List.getD_eq_default o [] ho,
      comparePrereleaseLoop_beyond s o k (i + 1) (by omega) (by omega)]
    simp [comparePrePart]

/-- More iterations than the longer list has parts change nothing. -/
theorem comparePrereleaseLoop_more (s o : List (List Char)) (k : Nat) :
    ∀ n i, s.length ≤ i + n → o.length ≤ i + n →
      comparePrereleaseLoop s o (n + k) i = comparePrereleaseLoop s o n i
  | 0, i, hs, ho => by
    rw [comparePrereleaseLoop_beyond s o _ i (by omega) (by omega)]
    simp [comparePrereleaseLoop]
  | n + 1, i, hs, ho => by
    have e : n + 1 + k = (n + k) + 1 := by omega
    rw [e]
    simp only [comparePrereleaseLoop]
    rw [comparePrereleaseLoop_more s o k n (i + 1) (by omega) (by omega)]

theorem comparePrerelease_eq_loop (v o : List Char) (N : Nat)
    (hv : (splitDot v).length ≤ N) (ho : (splitDot o).length ≤ N) :
    comparePrerelease v o = comparePrereleaseLoop (splitDot v) (splitDot o) N 0 := by
  unfold comparePrerelease
  simp only
  split_ifs with h
  · obtain ⟨k, rfl⟩ := Nat.exists_eq_add_of_le ho
    rw [comparePrereleaseLoop_more _ _ k _ 0 (by omega) (by omega)]
  · obtain ⟨k, rfl⟩ := Nat.exists_eq_add_of_le hv
    rw [comparePrereleaseLoop_more _ _ k _ 0 (by omega) (by omega)]

theorem comparePrerelease_trans (a b c : List Char)
    (hab : comparePrerelease a b ≥ 0) (hbc : comparePrerelease b c ≥ 0) :
    comparePrerelease a c ≥ 0 := by
  have ha : (splitDot a).length
      ≤ (splitDot a).length + (splitDot b).length + (splitDot c).length := by omega
  have hb : (splitDot b).length
      ≤ (splitDot a).length + (splitDot b).length + (splitDot c).length := by omega
  have hc : (splitDot c).length
      ≤ (splitDot a).length + (splitDot b).length + (splitDot c).length := by omega
  rw [comparePrerelease_eq_loop a b _ ha hb] at hab
  rw [comparePrerelease_eq_loop b c _ hb hc] at hbc
  rw [comparePrerelease_eq_loop a c _ ha hc]
  exact comparePrereleaseLoop_trans _ _ _ _ _ hab hbc

/-- When `Compare` is not negative, in terms of the fields. -/
theorem Compare_nonneg_iff (v o : Version) :
    v.Compare o ≥ 0 ↔
      v.major > o.major ∨ (v.major = o.major ∧
        (v.minor > o.minor ∨ (v.minor = o.minor ∧
          (v.patch > o.patch ∨ (v.patch = o.patch ∧
            (v.pre = "" ∨ (o.pre ≠ "" ∧ comparePrerelease v.pre.data o.pre.data ≥ 0))))))) := by
  unfold Version.Compare compareSegment
  by_cases h1 : v.major < o.major
  · have : ¬ v.major > o.major := by omega
    have : ¬ v.major = o.major := by omega
    simp [*]
  · by_cases h1' : v.major > o.major
    · simp [*]
    · have e1 : v.major = o.major := by omega
      by_cases h2 : v.minor < o.minor
      · have : ¬ v.minor > o.minor := by omega
        have : ¬ v.minor = o.minor := by omega
        simp [*]
      · by_cases h2' : v.minor > o.minor
        · simp [*]
        · have e2 : v.minor = o.minor := by omega
          by_cases h3 : v.patch < o.patch
          · have : ¬ v.patch > o.patch := by omega
            have : ¬ v.patch = o.patch := by omega
            simp [*]
          · by_cases h3' : v.patch > o.patch
            · simp [*]
            · have e3 : v.patch = o.patch := by omega
              by_cases hvp : v.pre = ""
              · by_cases hop : o.pre = ""
                · simp [*]
                · simp [*]
              · by_cases hop : o.pre = ""
                · simp [*]
                · simp [*]

/-- The order of `Compare` is transitive. -/
theorem Compare_trans (a b c : Version) (hab : a.Compare b ≥ 0) (hbc : b.Compare c ≥ 0) :
    a.Compare c ≥ 0 := by
  rw [Compare_nonneg_iff] at hab hbc ⊢
  rcases hab with h | ⟨e1, hab⟩
  · rcases hbc with h' | ⟨e1', _⟩
    · exact Or.inl (by omega)
    · exact Or.inl (by omega)
  · rcases hbc with h' | ⟨e1', hbc⟩
    · exact Or.inl (by omega)
    · refine Or.inr ⟨by omega, ?_⟩
      rcases hab with h | ⟨e2, hab⟩
      · rcases hbc with h' | ⟨e2', _⟩
        · exact Or.inl (by omega)
        · exact Or.inl (by omega)
      · rcases hbc with h' | ⟨e2', hbc⟩
        · exact Or.inl (by omega)
        · refine Or.inr ⟨by omega, ?_⟩
          rcases hab with h | ⟨e3, hab⟩
          · rcases hbc with h' | ⟨e3', _⟩
            · exact Or.inl (by omega)
            · exact Or.inl (by omega)
          · rcases hbc with h' | ⟨e3', hbc⟩
            · exact Or.inl (by omega)
            · refine Or.inr ⟨by omega, ?_⟩
              rcases hab with ha | ⟨hb, hab⟩
              · exact Or.inl ha
              · rcases hbc with hb' | ⟨hc, hbc⟩
                · exact absurd hb' hb
                · exact Or.inr ⟨hc, comparePrerelease_trans _ _ _ hab hbc⟩

theorem GreaterThanEqual_trans (a b c : Version) (hab : a.GreaterThanEqual b = true)
    (hbc : b.GreaterThanEqual c = true) : a.GreaterThanEqual c = true := by
  simp only [Version.GreaterThanEqual, decide_eq_true_eq] at hab hbc ⊢
  exact Compare_trans a b c hab hbc

end semver

namespace dataprovider

/-- Upgrading the answer of a tile's lookup keeps the tile satisfied and keeps
a confirmed status confirmed. -/
theorem getTileBumpInfo_upgraded (p p' : releasesDataProvider) (tileName releaseName : String)
    (fr : semver.Version) (k k' k1 k1' : List Call) (answer answer' : String × Bool)
    (hfr : fr.Valid)
    (hl : tileLookup p tileName releaseName k = some (answer, k1))
    (hl' : tileLookup p' tileName releaseName k' = some (answer', k1'))
    (hup : releaseName ≠ "" → Upgraded answer answer') :
    ((getTileBumpInfo p tileName releaseName fr true k).1.2 = true →
      (getTileBumpInfo p' tileName releaseName fr true k').1.2 = true) ∧
    (statusConfirmed (getTileBumpInfo p tileName releaseName fr true k).1.1 = true →
      statusConfirmed (getTileBumpInfo p' tileName releaseName fr true k').1.1 = true) := by
  by_cases hn : releaseName = ""
  · simp [getTileBumpInfo, hn]
  · rcases hup hn with he | ⟨v, v', hf, hf', hv, hv', hge⟩
    · have e := getTileBumpInfo_own_answer p p' tileName releaseName fr true k k'
        (by rw [hl, hl', he]; rfl)
      rw [e]
      exact ⟨id, id⟩
    · obtain ⟨a, b⟩ := answer
      obtain ⟨a', b'⟩ := answer'
      simp only at hf hf' hv hv'
      subst hf hf'
      rw [getTileBumpInfo_found p tileName releaseName a fr v k k1 hn hfr hl hv,
        getTileBumpInfo_found p' tileName releaseName a' fr v' k' k1' hn hfr hl' hv']
      by_cases hvr : v.GreaterThanEqual fr = true
      · have := semver.GreaterThanEqual_trans v' v fr hge hvr
        simp [hvr, this, statusConfirmed_yes]
      · simp [hvr, statusConfirmed_no]

/-- The three lookups always answer. -/
theorem tileLookup_tiles (p : releasesDataProvider) (releaseName : String) (k : List Call) :
    tileLookup p "TAS" releaseName k
        = some (p.tasVersion.GetTasReleaseVersion k releaseName,
            k ++ [Call.GetTasReleaseVersion releaseName]) ∧
      tileLookup p "TASW" releaseName k
        = some (p.tasVersion.GetTaswReleaseVersion k releaseName,
            k ++ [Call.GetTaswReleaseVersion releaseName]) ∧
      tileLookup p "IST" releaseName k
        = some (p.tasVersion.GetIstReleaseVersion k releaseName,
            k ++ [Call.GetIstReleaseVersion releaseName]) := by
  refine ⟨rfl, rfl, rfl⟩

/-- Upgrading tiles keeps confirmed statuses confirmed and `AllBumped` true, in
the row of one release. -/
theorem fetchRelease_upgraded (p : releasesDataProvider) (q : tasVersionProvider)
    (tv : Option semver.Version) (r : config.Release) (c : List Call)
    (hTas : r.TasReleaseName ≠ "" →
      Upgraded (p.tasVersion.GetTasReleaseVersion (callsAtTiles p r c) r.TasReleaseName)
        (q.GetTasReleaseVersion (callsAtTiles p r c) r.TasReleaseName))
    (hTasw : r.TaswReleaseName ≠ "" →
      Upgraded
        (p.tasVersion.GetTaswReleaseVersion
          (tileCalls "TAS" r.TasReleaseName true (callsAtTiles p r c)) r.TaswReleaseName)
        (q.GetTaswReleaseVersion
          (tileCalls "TAS" r.TasReleaseName true (callsAtTiles p r c)) r.TaswReleaseName))
    (hIst : r.IstReleaseName ≠ "" →
      Upgraded
        (p.tasVersion.GetIstReleaseVersion
          (tileCalls "TASW" r.TaswReleaseName true
            (tileCalls "TAS" r.TasReleaseName true (callsAtTiles p r c))) r.IstReleaseName)
        (q.GetIstReleaseVersion
          (tileCalls "TASW" r.TaswReleaseName true
            (tileCalls "TAS" r.TasReleaseName true (callsAtTiles p r c))) r.IstReleaseName)) :
    (statusConfirmed (fetchRelease p tv r c).1.BumpedInTas = true →
      statusConfirmed (fetchRelease { p with tasVersion := q } tv r c).1.BumpedInTas = true) ∧
    (statusConfirmed (fetchRelease p tv r c).1.BumpedInTasw = true →
      statusConfirmed (fetchRelease { p with tasVersion := q } tv r c).1.BumpedInTasw = true) ∧
    (statusConfirmed (fetchRelease p tv r c).1.BumpedInIst = true →
      statusConfirmed (fetchRelease { p with tasVersion := q } tv r c).1.BumpedInIst = true) ∧
    ((fetchRelease p tv r c).1.AllBumped = true →
      (fetchRelease { p with tasVersion := q } tv r c).1.AllBumped = true) := by
  by_cases hd : r.OnlyDevelop = true
  · obtain ⟨a1, a2, a3, a4⟩ := fetchRelease_onlyDevelop p tv r c hd
    obtain ⟨b1, b2, b3, b4⟩ := fetchRelease_onlyDevelop { p with tasVersion := q } tv r c hd
    rw [a1, a2, a3, a4, b1, b2, b3, b4]
    exact ⟨id, id, id, id⟩
  · have hd' : r.OnlyDevelop = false := by simpa using hd
    by_cases hfail : (releasedAnswer p r c).2 ≠ none ∨
        ((releasedAnswer p r c).2 = none ∧ (firstAnswer p r c).2 ≠ none)
    · obtain ⟨a1, a2, a3, a4⟩ := fetchRelease_fetch_failed p tv r c hd' hfail
      obtain ⟨b1, b2, b3, b4⟩ :=
        fetchRelease_fetch_failed { p with tasVersion := q } tv r c hd' hfail
      rw [a1, a2, a3, a4, b1, b2, b3, b4]
      exact ⟨id, id, id, id⟩
    · have hrel : (releasedAnswer p r c).2 = none := by
        by_contra hc
        exact hfail (Or.inl hc)
      have hfirst : (firstAnswer p r c).2 = none := by
        by_contra hc
        exact hfail (Or.inr ⟨hrel, hc⟩)
      cases hfr : semver.NewVersion (firstAnswer p r c).1.ReleaseVersion with
      | none =>
        obtain ⟨a1, a2, a3, a4⟩ := fetchRelease_pair_unparsed p tv r c hd' hrel hfirst hfr
        obtain ⟨b1, b2, b3, b4⟩ :=
          fetchRelease_pair_unparsed { p with tasVersion := q } tv r c hd' hrel hfirst hfr
        rw [a1, a2, a3, a4, b1, b2, b3, b4]
        exact ⟨id, id, id, id⟩
      | some fr =>
        cases hfg : semver.NewVersion (firstAnswer p r c).1.GolangVersion with
        | none =>
          obtain ⟨a1, a2, a3, a4⟩ :=
            fetchRelease_toolchain_unparsed p tv r c fr hd' hrel hfirst hfr hfg
          obtain ⟨b1, b2, b3, b4⟩ :=
            fetchRelease_toolchain_unparsed { p with tasVersion := q } tv r c fr hd' hrel
              hfirst hfr hfg
          rw [a1, a2, a3, a4, b1, b2, b3, b4]
          exact ⟨id, id, id, id⟩
        | some fg =>
          obtain ⟨a1, a2, a3, a4⟩ := fetchRelease_tiles p tv r c fr fg hd' hrel hfirst hfr hfg
          obtain ⟨b1, b2, b3, b4⟩ :=
            fetchRelease_tiles { p with tasVersion := q } tv r c fr fg hd' hrel hfirst hfr hfg
          rw [a1, a2, a3, a4, b1, b2, b3, b4]
          cases isTargetReleased tv fg with
          | false =>
            simp only [getTileBumpInfo_not_released]
            exact ⟨id, id, id, id⟩
          | true =>
            have hv := semver.NewVersion_valid hfr
            have m1 := getTileBumpInfo_upgraded p { p with tasVersion := q } "TAS"
              r.TasReleaseName fr (callsAtTiles p r c) (callsAtTiles p r c) _ _ _ _ hv
              (tileLookup_tiles p _ _).1 (tileLookup_tiles { p with tasVersion := q } _ _).1 hTas
            have m2 := getTileBumpInfo_upgraded p { p with tasVersion := q } "TASW"
              r.TaswReleaseName fr (tileCalls "TAS" r.TasReleaseName true (callsAtTiles p r c))
              (tileCalls "TAS" r.TasReleaseName true (callsAtTiles p r c)) _ _ _ _ hv
              (tileLookup_tiles p _ _).2.1 (tileLookup_tiles { p with tasVersion := q } _ _).2.1
              hTasw
            have m3 := getTileBumpInfo_upgraded p { p with tasVersion := q } "IST"
              r.IstReleaseName fr
              (tileCalls "TASW" r.TaswReleaseName true
                (tileCalls "TAS" r.TasReleaseName true (callsAtTiles p r c)))
              (tileCalls "TASW" r.TaswReleaseName true
                (tileCalls "TAS" r.TasReleaseName true (callsAtTiles p r c))) _ _ _ _ hv
              (tileLookup_tiles p _ _).2.2 (tileLookup_tiles { p with tasVersion := q } _ _).2.2
              hIst
            refine ⟨m1.2, m2.2, m3.2, ?_⟩
            intro hall
            simp only [Bool.and_eq_true, Bool.true_and] at hall ⊢
            exact ⟨⟨m1.1 hall.1.1, m2.1 hall.1.2⟩, m3.1 hall.2⟩

/-- C17: a tile confirmed at version `v` against the required version is
confirmed at every version `v'` greater than or equal to `v`; and in the row of
a release, upgrading the versions the tiles answer keeps every confirmed status
confirmed and keeps `AllBumped` true. -/
theorem tile_upgrade_monotone (p : releasesDataProvider) (q : tasVersionProvider)
    (target : String) (calls : List Call) (i : Nat) (r : config.Release)
    (h : p.config.Releases[i]? = some r)
    (hTas : r.TasReleaseName ≠ "" →
      Upgraded
        (p.tasVersion.GetTasReleaseVersion (callsAtTiles p r (callsAt p target calls i))
          r.TasReleaseName)
        (q.GetTasReleaseVersion (callsAtTiles p r (callsAt p target calls i))
          r.TasReleaseName))
    (hTasw : r.TaswReleaseName ≠ "" →
      Upgraded
        (p.tasVersion.GetTaswReleaseVersion
          (tileCalls "TAS" r.TasReleaseName true (callsAtTiles p r (callsAt p target calls i)))
          r.TaswReleaseName)
        (q.GetTaswReleaseVersion
          (tileCalls "TAS" r.TasReleaseName true (callsAtTiles p r (callsAt p target calls i)))
          r.TaswReleaseName))
    (hIst : r.IstReleaseName ≠ "" →
      Upgraded
        (p.tasVersion.GetIstReleaseVersion
          (tileCalls "TASW" r.TaswReleaseName true
            (tileCalls "TAS" r.TasReleaseName true
              (callsAtTiles p r (callsAt p target calls i))))
          r.IstReleaseName)
        (q.GetIstReleaseVersion
          (tileCalls "TASW" r.TaswReleaseName true
            (tileCalls "TAS" r.TasReleaseName true
              (callsAtTiles p r (callsAt p target calls i))))
          r.IstReleaseName)) :
    (∀ (tileName releaseName first answer answer' : String)
        (firstReleaseV v v' : semver.Version) (k k' k1 k1' : List Call),
      releaseName ≠ "" → semver.NewVersion first = some firstReleaseV →
      tileLookup p tileName releaseName k = some ((answer, true), k1) →
      semver.NewVersion answer = some v →
      tileLookup { p with tasVersion := q } tileName releaseName k'
        = some ((answer', true), k1') →
      semver.NewVersion answer' = some v' →
      v'.GreaterThanEqual v = true →
      (getTileBumpInfo p tileName releaseName firstReleaseV true k).1
        = ("yes (" ++ v.String ++ ")", true) →
      (getTileBumpInfo { p with tasVersion := q } tileName releaseName firstReleaseV true k').1
        = ("yes (" ++ v'.String ++ ")", true)) ∧
    ∃ row row',
      (fetch p target calls).1.Releases[i]? = some row ∧
      (fetch { p with tasVersion := q } target calls).1.Releases[i]? = some row' ∧
      (statusConfirmed row.BumpedInTas = true → statusConfirmed row'.BumpedInTas = true) ∧
      (statusConfirmed row.BumpedInTasw = true → statusConfirmed row'.BumpedInTasw = true) ∧
      (statusConfirmed row.BumpedInIst = true → statusConfirmed row'.BumpedInIst = true) ∧
      (row.AllBumped = true → row'.AllBumped = true) := by
  constructor
  · intro tileName releaseName first answer answer' fr v v' k k' k1 k1' hn hfr hl hv hl' hv'
      hge hyes
    have hvalid := semver.NewVersion_valid hfr
    rw [getTileBumpInfo_found p tileName releaseName answer fr v k k1 hn hvalid hl hv] at hyes
    rw [getTileBumpInfo_found _ tileName releaseName answer' fr v' k' k1' hn hvalid hl' hv']
    by_cases hvr : v.GreaterThanEqual fr = true
    · simp [semver.GreaterThanEqual_trans v' v fr hge hvr]
    · simp [hvr] at hyes
  · have hrow' : (fetch { p with tasVersion := q } target calls).1.Releases[i]?
        = some (fetchRelease { p with tasVersion := q } (semver.NewVersion target) r
            (callsAt p target calls i)).1 := by
      rw [fetch_row { p with tasVersion := q } target calls i r h, callsAt_tiles]
    exact ⟨_, _, fetch_row p target calls i r h, hrow',
      fetchRelease_upgraded p q _ r _ hTas hTasw hIst⟩

/-- The first release of the sample configuration with the tiles upgraded from
v2.5.0 to v2.6.0: `AllBumped` is true before and after. -/
theorem tile_upgrade_monotone_witness :
    ∃ row row',
      (fetch sample.providerAhead "1.21.0" []).1.Releases[0]? = some row ∧
      (fetch { sample.providerAhead with tasVersion := sample.tilesNewer } "1.21.0"
        []).1.Releases[0]? = some row' ∧
      row.AllBumped = true ∧ row'.AllBumped = true := by
  obtain ⟨_, row, row', hrow, hrow', _, _, _, hall⟩ :=
    tile_upgrade_monotone sample.providerAhead sample.tilesNewer "1.21.0" [] 0 sample.routing
      (by decide)
      (fun _ => Or.inr ⟨⟨2, 5, 0, "", "", "v2.5.0"⟩, ⟨2, 6, 0, "", "", "v2.6.0"⟩, rfl, rfl,
        by decide, by decide, by decide⟩)
      (fun hne => absurd rfl hne)
      (fun _ => Or.inr ⟨⟨2, 5, 0, "", "", "v2.5.0"⟩, ⟨2, 6, 0, "", "", "v2.6.0"⟩, rfl, rfl,
        by decide, by decide, by decide⟩)
  have hb : row.AllBumped = true := by
    have hmap : (fetch sample.providerAhead "1.21.0" []).1.Releases[0]?.map
        (fun x => x.AllBumped) = some true := by decide
    rw [hrow] at hmap
    simpa using hmap
  exact ⟨row, row', hrow, hrow', hb, hall hb⟩

end dataprovider

/-! ## Facts about the loading of the configuration -/

namespace config

/-- A string without a slash is a single piece. -/
theorem Split_no_slash : ∀ s : List Char, '/' ∉ s → Split s = [s]
  | [], _ => rfl
  | c :: cs, h => by
    have hc : c ≠ '/' := fun e => h (by simp [e])
    have hcs : '/' ∉ cs := fun e => h (List.mem_cons_of_mem _ e)
    simp [Split, hc, Split_no_slash cs hcs]

/-- Whenever the path of a URL that parses has, after its leading slashes, no
further slash, the index of `parts[1]` is out of range. -/
theorem ownerRepo_one_segment (lib : Library) (rawURL : String) (url : URL)
    (hparse : lib.Parse rawURL = Except.ok url) (hpath : '/' ∉ TrimLeft url.Path.data) :
    ownerRepo lib rawURL = Outcome.outOfRange 1 1 := by
  simp [ownerRepo, hparse, Split_no_slash _ hpath]

set_option maxRecDepth 8000 in
/-- C18, at a failing input: a configuration file whose second release has the
URL `https://github.com/cloudfoundry`, which parses. The first release gets
its owner and repository; for the second the path has one segment, and
`LoadConfig` neither returns a configuration nor an error: the index 1 of
`parts[1]` is out of range for the length 1. -/
theorem LoadConfig_index_out_of_range :
    sample.library.Parse "https://github.com/cloudfoundry" = Except.ok ⟨"/cloudfoundry"⟩ ∧
    ownerRepo sample.library "https://github.com/cloudfoundry/routing-release"
      = Outcome.ok ("cloudfoundry", "routing-release") ∧
    ownerRepo sample.library "https://github.com/cloudfoundry" = Outcome.outOfRange 1 1 ∧
    LoadConfig sample.library "config.json" = Outcome.outOfRange 1 1 := by
  exact ⟨rfl, by decide, by decide, by decide⟩

end config
